import Mathlib

/-!
# CUDASparseCholeskySolver: device-memory lifecycle and call protocol

Shallow embedding of `CUDACholeksySparseSolver.inl` (constructor, destructor,
`invert`, `solve`).  The CUDA runtime and the cuSOLVER/cuSPARSE libraries are
external; they are represented by a small device model (`Device`) whose call
statuses and numeric outputs are supplied by an environment (`Oracle`).

Conventions of the model
* a device address is a natural number, `0` is `nullptr`.  Which address a
  successful `cudaMalloc` returns is up to the environment (`Reply.addr`): any
  non-null address that is not a live allocation at that moment, in particular
  one that was released earlier.  Only when the environment proposes none (or
  an unusable one) the allocator takes `next`, an address above every address
  handed out so far.  The `Create` calls number their objects `next`,
  `next+1`, ...; these objects are never destroyed by the code;
* buffer capacities are in bytes (`sizeof(int) = 4`, `sizeof(double) = 8`,
  `sizeof(char) = 1`); buffer contents are lists of elements, a `double` being
  carried as an integer bit pattern;
* a call whose status is a failure has no effect on the device; whether it
  stores something in its pointer output argument is up to the environment
  (`Reply.scribble`);
* `cudaMemcpyAsync` only enqueues a transfer; `cudaDeviceSynchronize` completes
  the queued transfers in issue order;
* every call appends one `Event` to the device trace, so the index of a call in
  the trace is also the index at which the environment is consulted;
* sizes (`rowsA`, `colsA`, `nnz`, byte counts) are natural numbers.  The
  products `sizeof(T)*n` are computed in `size_t` and cannot wrap for an
  `int`-valued `n`.  The sum `rowsA + 1` is computed in `int` by the source and
  overflows at `rowsA = INT_MAX`; it is `intSucc`, and the statements that
  depend on it are made for `rowsA + 1 < 2^31`;
* host memory is not part of the state: a device-to-host copy is visible as an
  event of the trace and as an entry of the transfer queue until a wait
  completes it.
-/

namespace SofaCudaSolver

/-- One device allocation: its capacity in bytes and the elements it holds. -/
structure Buffer where
  cap : Nat
  data : List Int
  deriving DecidableEq, Repr

/-- An enqueued asynchronous copy of `count` elements of `elemSize` bytes. -/
inductive Transfer where
  | hostToDevice (dst : Nat) (src : List Int) (elemSize count : Nat)
  | deviceToHost (src : Nat) (elemSize count : Nat)
  deriving DecidableEq, Repr

/-- Library-owned factorization-info object (`csrcholInfo_t`): the pattern seen
by symbolic analysis and the values seen by numeric factorization. -/
structure CsrcholInfo where
  id : Nat
  pattern : Option (List Int × List Int)
  factor : Option (List Int)
  deriving DecidableEq, Repr

/-- The device/library calls the solver issues, with their arguments (the
constant arguments `CUSPARSE_MATRIX_TYPE_GENERAL`, `CUSPARSE_INDEX_BASE_ZERO`
and the stream of the copies are left out). -/
inductive Call where
  | cusolverSpCreate
  | cusparseCreate
  | cudaStreamCreate
  | cusolverSpSetStream (handle stream : Nat)
  | cusparseSetStream (handle stream : Nat)
  | cusparseCreateMatDescr
  | cusparseSetMatType (descr : Nat)
  | cusparseSetMatIndexBase (descr : Nat)
  | cudaMalloc (bytes : Nat)
  | cudaFree (p : Nat)
  | cudaMemcpyAsyncHostToDevice (dst : Nat) (src : List Int) (elemSize count : Nat)
  | cudaMemcpyAsyncDeviceToHost (src : Nat) (elemSize count : Nat)
  | cudaDeviceSynchronize
  | cusolverSpCreateCsrcholInfo
  | cusolverSpXcsrcholAnalysis (handle : Nat) (rows nnz : Nat) (descr rowPtr colsInd info : Nat)
  | cusolverSpDcsrcholBufferInfo (handle : Nat) (rows nnz : Nat)
      (descr values rowPtr colsInd info : Nat)
  | cusolverSpDcsrcholFactor (handle : Nat) (rows nnz : Nat)
      (descr values rowPtr colsInd info buffer : Nat)
  | cusolverSpDcsrcholSolve (handle : Nat) (rows : Nat) (b x info buffer : Nat)
  deriving DecidableEq, Repr

/-- One issued call: the call, its status, and whether the device ranges it
names lay inside live allocations when it was issued (see `Device.accessOk`). -/
structure Event where
  call : Call
  ok : Bool
  inBounds : Bool
  deriving DecidableEq, Repr

/-- What the environment answers to one call: the status, the two sizes of the
workspace query, the vector the triangular solve writes, the address proposed
for an allocation (`0` for no proposal), and what a failing call stores in its
pointer output argument (`none` when it leaves the argument as it was). -/
structure Reply where
  ok : Bool
  sizeInternal : Nat
  sizeWork : Nat
  solution : List Int
  addr : Nat
  scribble : Option Nat
  deriving DecidableEq, Repr

/-- The environment: the reply to the call issued at each trace index. -/
abbrev Oracle := Nat → Reply

/-- Device state. -/
structure Device where
  mem : Nat → Option Buffer
  next : Nat
  pending : List Transfer
  infos : List CsrcholInfo
  trace : List Event

/-- The device before any call: nothing allocated, address `0` reserved. -/
def Device.fresh : Device :=
  { mem := fun _ => none, next := 1, pending := [], infos := [], trace := [] }

/-- Memory with the entry at `p` replaced. -/
def setMem (mem : Nat → Option Buffer) (p : Nat) (v : Option Buffer) : Nat → Option Buffer :=
  fun q => if q = p then v else mem q

/-- The address a successful `cudaMalloc` returns when the environment proposes
`a`: `a` itself when it is non-null and not a live allocation, else `next`. -/
def Device.pick (d : Device) (a : Nat) : Nat :=
  if a ≠ 0 ∧ d.mem a = none then a else d.next

/-- Elements held at `p` (nothing when `p` is not a live allocation). -/
def Device.dataAt (d : Device) (p : Nat) : List Int :=
  match d.mem p with
  | some b => b.data
  | none => []

/-- Capacity in bytes of the allocation at `p`, if live. -/
def Device.capAt (d : Device) (p : Nat) : Option Nat :=
  (d.mem p).map Buffer.cap

/-- Whether `bytes` bytes starting at `p` lie inside a live allocation. -/
def rangeOk (mem : Nat → Option Buffer) (p : Nat) (bytes : Nat) : Bool :=
  match mem p with
  | some b => decide (bytes ≤ b.cap)
  | none => false

/-- Whether the device ranges named by a copy or by the triangular solve lie
inside live allocations; `true` for every other call. -/
def Device.accessOk (d : Device) : Call → Bool
  | .cudaMemcpyAsyncHostToDevice dst _ elemSize count => rangeOk d.mem dst (elemSize * count)
  | .cudaMemcpyAsyncDeviceToHost src elemSize count => rangeOk d.mem src (elemSize * count)
  | .cusolverSpDcsrcholSolve _ rows b x _ _ =>
      rangeOk d.mem b (8 * rows) && rangeOk d.mem x (8 * rows)
  | _ => true

/-- Completion of one queued transfer.  A host-to-device copy overwrites the
first `count` elements of the destination; one that does not fit a live
allocation is dropped.  A device-to-host copy leaves the device unchanged. -/
def Transfer.complete (mem : Nat → Option Buffer) : Transfer → (Nat → Option Buffer)
  | .hostToDevice dst src elemSize count =>
      match mem dst with
      | some b =>
          if elemSize * count ≤ b.cap then
            setMem mem dst (some { b with data := src.take count ++ b.data.drop count })
          else mem
      | none => mem
  | .deviceToHost _ _ _ => mem

/-- Completion of the queued transfers, oldest first. -/
def flush (ts : List Transfer) (mem : Nat → Option Buffer) : Nat → Option Buffer :=
  ts.foldl Transfer.complete mem

/-- Host matrix in compressed-row form, as `invert` reads it after
`M.compress()`. -/
structure HostMatrix where
  rowBSize : Nat
  colBSize : Nat
  rowBegin : List Int
  colsIndex : List Int
  colsValue : List Int
  deriving DecidableEq, Repr

/-- Data members of `CUDASparseCholeskySolver` that the four member functions
read or write.  (The `*Permuted`, `host_perm`, `host_map` members are only set
to `nullptr` by the constructor and never used.)  Host pointers into the
caller's matrix are represented by the arrays they point to. -/
structure Solver where
  rowsA : Nat
  colsA : Nat
  nnz : Nat
  host_RowPtr : List Int
  host_ColsInd : List Int
  host_values : List Int
  device_RowPtr : Nat
  device_ColsInd : Nat
  device_values : Nat
  device_perm : Nat
  device_x : Nat
  device_b : Nat
  buffer_gpu : Nat
  device_info : Nat
  handle : Nat
  cusparseHandle : Nat
  stream : Nat
  descr : Nat
  singularity : Int
  tol : ℚ
  size_internal : Nat
  size_work : Nat
  firstStep : Bool

/-- Solver object together with the device it drives. -/
structure World where
  solver : Solver
  dev : Device

/-- A member-function body: reads the environment, transforms the world, and
either runs to its end (`some`) or is aborted by a status guard (`none`). -/
def Op (α : Type) := Oracle → World → Option α × World

/-- Sequencing: an aborted prefix aborts the whole. -/
def Op.bind {α β : Type} (x : Op α) (f : α → Op β) : Op β := fun o w =>
  match x o w with
  | (some a, w1) => f a o w1
  | (none, w1) => (none, w1)

/-- Finishing with a value. -/
def Op.pure {α : Type} (a : α) : Op α := fun _ w => (some a, w)

instance : Monad Op where
  pure := Op.pure
  bind := Op.bind

/-- Read the solver's members. -/
def getSolver : Op Solver := fun _ w => (some w.solver, w)

/-- Assign to the solver's members. -/
def setSolver (f : Solver → Solver) : Op Unit := fun _ w =>
  (some (), { w with solver := f w.solver })

/-- The world after call `c` was recorded with status `ok`, before any effect. -/
def record (c : Call) (ok : Bool) (w : World) : World :=
  { w with dev := { w.dev with trace := w.dev.trace ++ [⟨c, ok, w.dev.accessOk c⟩] } }

/-- Issue one call: consult the environment, record the event, and apply the
call's effect when the status is a success, and what the failing call leaves
behind otherwise.  Returns the status. -/
def issue (c : Call) (effect failed : Reply → World → World) : Op Bool := fun o w =>
  let r := o w.dev.trace.length
  (some r.ok, if r.ok then effect r (record c true w) else failed r (record c false w))

/-- What a failing call without pointer output leaves behind: nothing. -/
def World.untouched (_ : Reply) (w : World) : World := w

/-- What a failing call with pointer output `out` leaves behind: the output is
as it was, or holds what the environment stored there. -/
def World.scribbled (out : Nat → Solver → Solver) (r : Reply) (w : World) : World :=
  match r.scribble with
  | some p => { w with solver := out p w.solver }
  | none => w

/-- Effect of a successful `Create` call: a new handle, written to `out`. -/
def World.newHandle (out : Nat → Solver → Solver) (w : World) : World :=
  { solver := out w.dev.next w.solver, dev := { w.dev with next := w.dev.next + 1 } }

/-- Effect of a successful `cudaMalloc(&field, bytes)` when the environment
proposes the address `a`. -/
def World.alloc (out : Nat → Solver → Solver) (bytes : Nat) (a : Nat) (w : World) : World :=
  { solver := out (w.dev.pick a) w.solver,
    dev := { w.dev with
      mem := setMem w.dev.mem (w.dev.pick a) (some { cap := bytes, data := [] }),
      next := max w.dev.next (w.dev.pick a + 1) } }

/-- Effect of a successful `cudaFree(p)`. -/
def World.free (p : Nat) (w : World) : World :=
  { w with dev := { w.dev with mem := setMem w.dev.mem p none } }

/-- Effect of a successful `cudaMemcpyAsync`: the transfer is queued. -/
def World.enqueue (t : Transfer) (w : World) : World :=
  { w with dev := { w.dev with pending := w.dev.pending ++ [t] } }

/-- Effect of a successful `cudaDeviceSynchronize`: queued transfers complete. -/
def World.sync (w : World) : World :=
  { w with dev := { w.dev with mem := flush w.dev.pending w.dev.mem, pending := [] } }

/-- Effect of a successful `cusolverSpCreateCsrcholInfo(&device_info)`. -/
def World.newInfo (out : Nat → Solver → Solver) (w : World) : World :=
  { solver := out w.dev.next w.solver,
    dev := { w.dev with
      infos := w.dev.infos ++ [{ id := w.dev.next, pattern := none, factor := none }],
      next := w.dev.next + 1 } }

/-- Replace the info objects with identifier `id` by `f` of them. -/
def updateInfo (infos : List CsrcholInfo) (id : Nat) (f : CsrcholInfo → CsrcholInfo) :
    List CsrcholInfo :=
  infos.map fun i => if i.id = id then f i else i

/-- Effect of a successful `cusolverSpXcsrcholAnalysis`: the info object
records the row pointer and column indices found on the device. -/
def World.analysed (rows nnz : Nat) (rowPtr colsInd info : Nat) (w : World) : World :=
  { w with dev := { w.dev with
      infos := updateInfo w.dev.infos info fun i =>
        { id := i.id,
          pattern := some ((w.dev.dataAt rowPtr).take (rows + 1), (w.dev.dataAt colsInd).take nnz),
          factor := i.factor } } }

/-- Effect of a successful `cusolverSpDcsrcholFactor`: the info object records
the values found on the device. -/
def World.factored (nnz : Nat) (values info : Nat) (w : World) : World :=
  { w with dev := { w.dev with
      infos := updateInfo w.dev.infos info fun i =>
        { id := i.id, pattern := i.pattern, factor := some ((w.dev.dataAt values).take nnz) } } }

/-- Effect of a successful `cusolverSpDcsrcholSolve`: the library overwrites
the first `rows` elements of `x` with the vector it computed. -/
def World.solved (rows : Nat) (x : Nat) (solution : List Int) (w : World) : World :=
  { w with dev := { w.dev with
      mem := match w.dev.mem x with
        | some buf =>
            setMem w.dev.mem x (some { buf with data := solution.take rows ++ buf.data.drop rows })
        | none => w.dev.mem } }

/-- A call that creates a library object and writes its handle to `out`. -/
def createHandle (c : Call) (out : Nat → Solver → Solver) : Op Bool :=
  issue c (fun _ w => w.newHandle out) (World.scribbled out)

/-- A configuration call on existing handles: no effect on the model. -/
def configure (c : Call) : Op Bool :=
  issue c (fun _ w => w) World.untouched

/-- Model of `cudaMalloc(&field, bytes)`. -/
def cudaMalloc (out : Nat → Solver → Solver) (bytes : Nat) : Op Bool :=
  issue (.cudaMalloc bytes) (fun r w => w.alloc out bytes r.addr) (World.scribbled out)

/-- Model of `cudaFree(p)`. -/
def cudaFree (p : Nat) : Op Bool :=
  issue (.cudaFree p) (fun _ w => w.free p) World.untouched

/-- Model of `cudaMemcpyAsync(dst, src, elemSize*count, cudaMemcpyHostToDevice, stream)`. -/
def cudaMemcpyAsyncHostToDevice (dst : Nat) (src : List Int) (elemSize count : Nat) : Op Bool :=
  issue (.cudaMemcpyAsyncHostToDevice dst src elemSize count)
    (fun _ w => w.enqueue (.hostToDevice dst src elemSize count)) World.untouched

/-- Model of `cudaMemcpyAsync(hostDst, src, elemSize*count, cudaMemcpyDeviceToHost, stream)`. -/
def cudaMemcpyAsyncDeviceToHost (src : Nat) (elemSize count : Nat) : Op Bool :=
  issue (.cudaMemcpyAsyncDeviceToHost src elemSize count)
    (fun _ w => w.enqueue (.deviceToHost src elemSize count)) World.untouched

/-- Model of `cudaDeviceSynchronize()`. -/
def cudaDeviceSynchronize : Op Bool :=
  issue .cudaDeviceSynchronize (fun _ w => w.sync) World.untouched

/-- Model of `cusolverSpCreateCsrcholInfo(&device_info)`. -/
def cusolverSpCreateCsrcholInfo (out : Nat → Solver → Solver) : Op Bool :=
  issue .cusolverSpCreateCsrcholInfo (fun _ w => w.newInfo out) (World.scribbled out)

/-- Model of `cusolverSpXcsrcholAnalysis`. -/
def cusolverSpXcsrcholAnalysis (handle : Nat) (rows nnz : Nat)
    (descr rowPtr colsInd info : Nat) : Op Bool :=
  issue (.cusolverSpXcsrcholAnalysis handle rows nnz descr rowPtr colsInd info)
    (fun _ w => w.analysed rows nnz rowPtr colsInd info) World.untouched

/-- Model of `cusolverSpDcsrcholBufferInfo`: writes the two sizes answered by
the library to `size_internal` and `size_work`. -/
def cusolverSpDcsrcholBufferInfo (handle : Nat) (rows nnz : Nat)
    (descr values rowPtr colsInd info : Nat) (out : Nat → Nat → Solver → Solver) : Op Bool :=
  issue (.cusolverSpDcsrcholBufferInfo handle rows nnz descr values rowPtr colsInd info)
    (fun r w => { w with solver := out r.sizeInternal r.sizeWork w.solver }) World.untouched

/-- Model of `cusolverSpDcsrcholFactor`. -/
def cusolverSpDcsrcholFactor (handle : Nat) (rows nnz : Nat)
    (descr values rowPtr colsInd info buffer : Nat) : Op Bool :=
  issue (.cusolverSpDcsrcholFactor handle rows nnz descr values rowPtr colsInd info buffer)
    (fun _ w => w.factored nnz values info) World.untouched

/-- Model of `cusolverSpDcsrcholSolve`. -/
def cusolverSpDcsrcholSolve (handle : Nat) (rows : Nat) (b x info buffer : Nat) : Op Bool :=
  issue (.cusolverSpDcsrcholSolve handle rows b x info buffer)
    (fun r w => w.solved rows x r.solution) World.untouched

/-- Modelled from the spec: the status guard `checkCudaErrors` (a macro of the
CUDA helper header, defined outside `CUDACholeksySparseSolver.inl`).  A
non-success status aborts the enclosing operation; a success lets it continue. -/
def checkCudaErrors (call : Op Bool) : Op Unit := fun o w =>
  match call o w with
  | (some true, w1) => (some (), w1)
  | (_, w1) => (none, w1)

/-- Modelled from the spec: the status guard `checksolver` (declared in
`CUDACholeksySparseSolver.h`, defined outside `CUDACholeksySparseSolver.inl`).
A non-success status aborts the enclosing operation; a success lets it
continue. -/
def checksolver (call : Op Bool) : Op Unit := fun o w =>
  match call o w with
  | (some true, w1) => (some (), w1)
  | (_, w1) => (none, w1)

/-- A call statement whose returned status is not looked at. -/
def discard (call : Op Bool) : Op Unit := fun o w => (some (), (call o w).2)

/-- The `int` sum `a + 1` of the source, as the `size_t` operand it becomes:
exact while it is below `2^31`; at `a = INT_MAX` the addition overflows, which
is rendered as the wrap to `INT_MIN`, sign-extended to 64 bits. -/
def intSucc (a : Nat) : Nat :=
  if a + 1 < 2 ^ 31 then a + 1 else 2 ^ 64 - 2 ^ 31

/-- Model of the constructor body (lines 35-81).  The members it does not
assign (`rowsA`, `colsA`, `nnz`) keep whatever the object's storage held. -/
def construct : Op Unit := do
  discard (createHandle .cusolverSpCreate fun p s => { s with handle := p })
  discard (createHandle .cusparseCreate fun p s => { s with cusparseHandle := p })
  discard (createHandle .cudaStreamCreate fun p s => { s with stream := p })
  let s ← getSolver
  discard (configure (.cusolverSpSetStream s.handle s.stream))
  let s ← getSolver
  discard (configure (.cusparseSetStream s.cusparseHandle s.stream))
  discard (createHandle .cusparseCreateMatDescr fun p s => { s with descr := p })
  let s ← getSolver
  discard (configure (.cusparseSetMatType s.descr))
  let s ← getSolver
  discard (configure (.cusparseSetMatIndexBase s.descr))
  setSolver fun s =>
    { s with
      host_RowPtr := [], host_ColsInd := [], host_values := [],
      device_RowPtr := 0, device_ColsInd := 0, device_values := 0,
      device_perm := 0,
      device_x := 0, device_b := 0,
      buffer_gpu := 0, device_info := 0,
      singularity := 0, tol := 1 / 1000000,
      size_internal := 0, size_work := 0,
      firstStep := true }

/-- Model of the destructor body (lines 88-93). -/
def destruct : Op Unit := do
  let s ← getSolver
  checkCudaErrors (cudaFree s.device_x)
  let s ← getSolver
  checkCudaErrors (cudaFree s.device_b)
  let s ← getSolver
  checkCudaErrors (cudaFree s.device_RowPtr)
  let s ← getSolver
  checkCudaErrors (cudaFree s.device_ColsInd)
  let s ← getSolver
  checkCudaErrors (cudaFree s.device_values)
  let s ← getSolver
  checkCudaErrors (cudaFree s.device_perm)

/-- Model of `solve(M, x, b)` (lines 100-112).  `x` and `b` are the host
vectors' storage; `M` is not used by the body.  Each statement reads the
members it names when it is executed. -/
def solve (x b : List Int) : Op Unit := do
  let s ← getSolver
  checkCudaErrors (cudaMemcpyAsyncHostToDevice s.device_b b 8 s.colsA)
  let s ← getSolver
  checkCudaErrors (cudaMemcpyAsyncHostToDevice s.device_x x 8 s.colsA)
  discard cudaDeviceSynchronize
  let s ← getSolver
  checksolver (cusolverSpDcsrcholSolve s.handle s.rowsA s.device_b s.device_x
    s.device_info s.buffer_gpu)
  checkCudaErrors cudaDeviceSynchronize
  let s ← getSolver
  checkCudaErrors (cudaMemcpyAsyncDeviceToHost s.device_x 8 s.colsA)

/-- Lines 119-126 of `invert`: read the sizes and array addresses of `M`. -/
def readMatrix (M : HostMatrix) : Op Unit :=
  setSolver fun s =>
    { s with
      rowsA := M.rowBSize, colsA := M.colBSize, nnz := M.colsValue.length,
      host_RowPtr := M.rowBegin, host_ColsInd := M.colsIndex, host_values := M.colsValue }

/-- Lines 132-139 of `invert`: the body of `if(firstStep)`. -/
def firstStepBody : Op Unit := do
  let s ← getSolver
  checkCudaErrors (cudaMalloc (fun p s => { s with device_RowPtr := p }) (4 * intSucc s.rowsA))
  let s ← getSolver
  checkCudaErrors (cudaMalloc (fun p s => { s with device_perm := p }) (8 * s.colsA))
  let s ← getSolver
  checkCudaErrors (cudaMalloc (fun p s => { s with device_x := p }) (8 * s.colsA))
  let s ← getSolver
  checkCudaErrors (cudaMalloc (fun p s => { s with device_b := p }) (8 * s.colsA))
  setSolver fun s => { s with firstStep := false }

/-- Lines 129-140 of `invert`: the allocations made while `firstStep` holds. -/
def firstStepAlloc : Op Unit := do
  let s ← getSolver
  if s.firstStep then firstStepBody else pure ()

/-- Lines 141-144 of `invert`: release and re-allocate the column-index and
values buffers. -/
def reallocNnz : Op Unit := do
  let s ← getSolver
  (if s.device_ColsInd ≠ 0 then discard (cudaFree s.device_ColsInd) else pure ())
  let s ← getSolver
  checkCudaErrors (cudaMalloc (fun p s => { s with device_ColsInd := p }) (4 * s.nnz))
  let s ← getSolver
  (if s.device_values ≠ 0 then discard (cudaFree s.device_values) else pure ())
  let s ← getSolver
  checkCudaErrors (cudaMalloc (fun p s => { s with device_values := p }) (8 * s.nnz))

/-- Lines 146-150 of `invert`: send the three arrays and wait. -/
def sendData : Op Unit := do
  let s ← getSolver
  checkCudaErrors (cudaMemcpyAsyncHostToDevice s.device_RowPtr s.host_RowPtr 4 (intSucc s.rowsA))
  let s ← getSolver
  checkCudaErrors (cudaMemcpyAsyncHostToDevice s.device_ColsInd s.host_ColsInd 4 s.nnz)
  let s ← getSolver
  checkCudaErrors (cudaMemcpyAsyncHostToDevice s.device_values s.host_values 8 s.nnz)
  discard cudaDeviceSynchronize

/-- Lines 153-168 of `invert`: factorize on the device. -/
def factorize : Op Unit := do
  checksolver (cusolverSpCreateCsrcholInfo fun p s => { s with device_info := p })
  let s ← getSolver
  checksolver (cusolverSpXcsrcholAnalysis s.handle s.rowsA s.nnz s.descr
    s.device_RowPtr s.device_ColsInd s.device_info)
  let s ← getSolver
  checksolver (cusolverSpDcsrcholBufferInfo s.handle s.rowsA s.nnz s.descr
    s.device_values s.device_RowPtr s.device_ColsInd s.device_info
    fun si sw s => { s with size_internal := si, size_work := sw })
  let s ← getSolver
  (if s.buffer_gpu ≠ 0 then discard (cudaFree s.buffer_gpu) else pure ())
  let s ← getSolver
  checkCudaErrors (cudaMalloc (fun p s => { s with buffer_gpu := p }) (1 * s.size_work))
  let s ← getSolver
  checksolver (cusolverSpDcsrcholFactor s.handle s.rowsA s.nnz s.descr
    s.device_values s.device_RowPtr s.device_ColsInd s.device_info s.buffer_gpu)

/-- Lines 119-150 of `invert`: materialize the host matrix on the device. -/
def stage (M : HostMatrix) : Op Unit := do
  readMatrix M
  firstStepAlloc
  reallocNnz
  sendData

/-- Model of `invert(M)` (lines 119-168): staging, then factorization. -/
def invert (M : HostMatrix) : Op Unit := do
  stage M
  factorize

/-! ## Specification vocabulary -/

/-- Every call answered by the environment succeeds. -/
def AllOk (o : Oracle) : Prop := ∀ i, (o i).ok = true

/-- Outcome specification of an operation under environment `o`: from a world
satisfying `P`, a run to the end leaves a world satisfying `Q` and an aborted
run leaves one satisfying `E`. -/
def Triple {α : Type} (o : Oracle) (P : World → Prop) (x : Op α)
    (Q : World → Prop) (E : World → Prop) : Prop :=
  ∀ w, P w → match x o w with
    | (some _, w1) => Q w1
    | (none, w1) => E w1

/-- Device facts that hold in every state: addresses at or above `next` are
unallocated, so is the null address, and `next` is not null. -/
structure Base (w : World) : Prop where
  fresh : ∀ p, w.dev.next ≤ p → w.dev.capAt p = none
  null : w.dev.capAt 0 = none
  pos : 1 ≤ w.dev.next

/-- The seven device pointers that `invert` allocates. -/
inductive Slot where
  | rowPtr
  | perm
  | x
  | b
  | colsInd
  | values
  | buffer
  deriving DecidableEq, Repr

/-- The pointer member a slot stands for. -/
def Slot.get : Slot → Solver → Nat
  | .rowPtr, s => s.device_RowPtr
  | .perm, s => s.device_perm
  | .x, s => s.device_x
  | .b, s => s.device_b
  | .colsInd, s => s.device_ColsInd
  | .values, s => s.device_values
  | .buffer, s => s.buffer_gpu

/-- Assignment to the pointer member a slot stands for. -/
def Slot.set : Slot → Nat → Solver → Solver
  | .rowPtr, p, s => { s with device_RowPtr := p }
  | .perm, p, s => { s with device_perm := p }
  | .x, p, s => { s with device_x := p }
  | .b, p, s => { s with device_b := p }
  | .colsInd, p, s => { s with device_ColsInd := p }
  | .values, p, s => { s with device_values := p }
  | .buffer, p, s => { s with buffer_gpu := p }

/-- For each slot, the capacity of the allocation its pointer owns, if any. -/
abbrev Shape := Slot → Option Nat

/-- The pointers of the owning slots name live allocations of the stated
capacities, and no two of them name the same allocation. -/
structure Owns (S : Shape) (w : World) : Prop where
  cap : ∀ sl c, S sl = some c → w.dev.capAt (sl.get w.solver) = some c
  apart : ∀ sl sl1, S sl ≠ none → S sl1 ≠ none → sl ≠ sl1 →
    sl.get w.solver ≠ sl1.get w.solver

/-- Memory discipline between two statements: the device facts, the owning
slots, and every slot that owns nothing holds the null pointer, except the slot
`d` (if any) whose buffer was just released and is about to be re-allocated. -/
structure Held (S : Shape) (d : Option Slot) (w : World) : Prop where
  base : Base w
  owns : Owns S w
  null : ∀ sl, S sl = none → d ≠ some sl → sl.get w.solver = 0

/-- An event whose device ranges were in bounds and which, if it is the
triangular solve, asks for `n` unknowns. -/
def Event.safe (n : Nat) (e : Event) : Prop :=
  e.inBounds = true ∧
    ∀ h rows b x i buf, e.call = .cusolverSpDcsrcholSolve h rows b x i buf → rows = n

/-- The trace is `tr0` followed by safe events. -/
def Ext (n : Nat) (tr0 : List Event) (w : World) : Prop :=
  ∃ evs, w.dev.trace = tr0 ++ evs ∧ ∀ e ∈ evs, e.safe n

/-- The members read from `M` at the start of `invert`. -/
structure Hdr (M : HostMatrix) (w : World) : Prop where
  rows : w.solver.rowsA = M.rowBSize
  cols : w.solver.colsA = M.colBSize
  nnz : w.solver.nnz = M.colsValue.length
  rowPtr : w.solver.host_RowPtr = M.rowBegin
  colsInd : w.solver.host_ColsInd = M.colsIndex
  values : w.solver.host_values = M.colsValue

/-- What holds between two statements of `invert M` after the members were
read: the memory discipline, the events issued so far (after `tr0`) were safe,
the members read from `M`, and the value of `firstStep`. -/
structure Mid (S : Shape) (d : Option Slot) (n : Nat) (tr0 : List Event) (M : HostMatrix)
    (f : Bool) (w : World) : Prop where
  held : Held S d w
  ext : Ext n tr0 w
  hdr : Hdr M w
  first : w.solver.firstStep = f

/-- The shape in which no slot owns anything. -/
def emptyShape : Shape := fun _ => none

/-- The shape after the first-step allocations of `invert M`. -/
def firstShape (M : HostMatrix) : Shape
  | .rowPtr => some (4 * (M.rowBSize + 1))
  | .perm => some (8 * M.colBSize)
  | .x => some (8 * M.colBSize)
  | .b => some (8 * M.colBSize)
  | .colsInd => none
  | .values => none
  | .buffer => none

/-- The shape once an `invert` has run to its end: a row pointer for `r` rows,
vector buffers of `v` bytes, and some capacity for each other buffer. -/
def fullShape (r v cp cc cv cb : Nat) : Shape
  | .rowPtr => some (4 * (r + 1))
  | .perm => some cp
  | .x => some v
  | .b => some v
  | .colsInd => some cc
  | .values => some cv
  | .buffer => some cb

/-- Invariant of the solver between two calls, for matrices of `r` rows and
vector buffers of `v` bytes: before the first `invert` nothing is owned and
every device pointer is null; afterwards every device pointer owns an
allocation. -/
def Inv (r v : Nat) (w : World) : Prop :=
  (w.solver.firstStep = true → Held emptyShape none w) ∧
  (w.solver.firstStep = false → ∃ cp cc cv cb, Held (fullShape r v cp cc cv cb) none w)

/-- The three transfers `invert M` queues, for the pointers held by `s`. -/
def transfers (M : HostMatrix) (s : Solver) : List Transfer :=
  [.hostToDevice s.device_RowPtr M.rowBegin 4 (M.rowBSize + 1),
   .hostToDevice s.device_ColsInd M.colsIndex 4 M.colsValue.length,
   .hostToDevice s.device_values M.colsValue 8 M.colsValue.length]

/-- The first `k` transfers of `invert M` are the last ones queued. -/
def Queued (k : Nat) (M : HostMatrix) (w : World) : Prop :=
  ∃ ps, w.dev.pending = ps ++ (transfers M w.solver).take k

/-- The three device buffers start with the arrays of `M`. -/
structure Landed (M : HostMatrix) (w : World) : Prop where
  rowPtr : (w.dev.dataAt w.solver.device_RowPtr).take (M.rowBSize + 1)
    = M.rowBegin.take (M.rowBSize + 1)
  colsInd : (w.dev.dataAt w.solver.device_ColsInd).take M.colsValue.length
    = M.colsIndex.take M.colsValue.length
  values : (w.dev.dataAt w.solver.device_values).take M.colsValue.length
    = M.colsValue.take M.colsValue.length

/-- The arrays of a compressed-row matrix have the lengths its sizes announce. -/
def WfCsr (M : HostMatrix) : Prop :=
  M.rowBegin.length = M.rowBSize + 1 ∧ M.colsIndex.length = M.colsValue.length

/-- After the wait of line 150: when every call succeeded and `M` is well
formed, the queued transfers have completed and the device holds `M`. -/
def Synced (o : Oracle) (M : HostMatrix) (w : World) : Prop :=
  AllOk o → WfCsr M → Landed M w

/-- The shape after the staging part of `invert M`, from the shape `S` the call
started with (`f` is the value `firstStep` had). -/
def stagedShape (S : Shape) (M : HostMatrix) (f : Bool) : Shape :=
  Function.update
    (Function.update (if f then firstShape M else S) .colsInd (some (4 * M.colsValue.length)))
    .values (some (8 * M.colsValue.length))

/-- Between two statements of `solve`: the memory discipline, the members are
those (`s0`) the call started with, and, under the proviso `G` (the vector
buffers hold `colsA` and `rowsA` doubles and `rowsA` is `n`), the events issued
so far were safe. -/
def SolveMid (G : Prop) (S : Shape) (n : Nat) (s0 : Solver) (tr0 : List Event) (w : World) :
    Prop :=
  Held S none w ∧ w.solver = s0 ∧ (G → Ext n tr0 w)

/-- The device right after construction started: nothing allocated yet. -/
def Pristine (n : Nat) (tr0 : List Event) (w : World) : Prop :=
  (∀ q, w.dev.capAt q = none) ∧ 1 ≤ w.dev.next ∧ Ext n tr0 w

/-- States reachable from construction by `invert` calls that ran to their end
(whatever the statuses of their unguarded calls), on matrices satisfying `P`,
and by `solve` calls, run to their end or aborted, made once an `invert` has
run to its end.  The environment is arbitrary at every call. -/
inductive Reach (P : HostMatrix → Prop) : World → Prop where
  | construct (raw : Solver) (o : Oracle) :
      Reach P (construct o { solver := raw, dev := Device.fresh }).2
  | invert {w : World} (o : Oracle) (M : HostMatrix) :
      Reach P w → P M → (invert M o w).1 = some () → Reach P (invert M o w).2
  | solve {w : World} (o : Oracle) (x b : List Int) :
      Reach P w → w.solver.firstStep = false → Reach P (solve x b o w).2

/-- The operation leaves the observation `g` of the world as it was, whatever
the environment answers and however the operation ends. -/
def Keeps {γ α : Type} (g : World → γ) (x : Op α) : Prop :=
  ∀ o w, g (x o w).2 = g w

/-- A reply reporting success, with workspace sizes 16 and 64 and no proposal
for the address of an allocation. -/
def okReply : Reply :=
  { ok := true, sizeInternal := 16, sizeWork := 64, solution := [1, 2, 3],
    addr := 0, scribble := none }

/-- The environment in which every call succeeds. -/
def allOk : Oracle := fun _ => okReply

/-- The environment in which every call succeeds and every allocation is
proposed the address `a` (taken whenever `a` is not live). -/
def allOkAt (a : Nat) : Oracle := fun _ => { okReply with addr := a }

/-- The environment in which only the call issued at trace index `i` fails
(leaving its output argument as it was). -/
def failAt (i : Nat) : Oracle := fun j =>
  if j = i then
    { ok := false, sizeInternal := 16, sizeWork := 64, solution := [1, 2, 3],
      addr := 0, scribble := none }
  else okReply

/-- The environment in which every call succeeds and only the allocation issued
at trace index `i` is proposed an address, `a`. -/
def proposeAt (i a : Nat) : Oracle := fun j =>
  if j = i then { okReply with addr := a } else okReply

/-- Storage of a solver object before its constructor ran (arbitrary values). -/
def rawSolver : Solver :=
  { rowsA := 99, colsA := 98, nnz := 97,
    host_RowPtr := [], host_ColsInd := [], host_values := [],
    device_RowPtr := 71, device_ColsInd := 72, device_values := 73,
    device_perm := 74, device_x := 75, device_b := 76,
    buffer_gpu := 77, device_info := 78,
    handle := 79, cusparseHandle := 80, stream := 81, descr := 82,
    singularity := 5, tol := 0,
    size_internal := 1, size_work := 2,
    firstStep := false }

/-- A freshly constructed solver on a fresh device, every call succeeding. -/
def built : World := (construct allOk { solver := rawSolver, dev := Device.fresh }).2

/-- The 3x3 identity matrix. -/
def identity3 : HostMatrix :=
  { rowBSize := 3, colBSize := 3,
    rowBegin := [0, 1, 2, 3], colsIndex := [0, 1, 2], colsValue := [1, 1, 1] }

/-- A 4x4 matrix with 5 stored entries. -/
def sparse5 : HostMatrix :=
  { rowBSize := 4, colBSize := 4,
    rowBegin := [0, 2, 3, 4, 5], colsIndex := [0, 1, 1, 2, 3], colsValue := [4, 1, 4, 4, 4] }

/-- A 4x4 matrix with 12 stored entries. -/
def sparse12 : HostMatrix :=
  { rowBSize := 4, colBSize := 4,
    rowBegin := [0, 3, 6, 9, 12],
    colsIndex := [0, 1, 2, 0, 1, 2, 1, 2, 3, 1, 2, 3],
    colsValue := [5, 1, 1, 1, 5, 1, 1, 5, 1, 1, 1, 5] }

/-- The 1x1 matrix whose only entry, the diagonal pivot, is zero. -/
def zero1 : HostMatrix :=
  { rowBSize := 1, colBSize := 1, rowBegin := [0, 1], colsIndex := [0], colsValue := [0] }

/-- The solver after a successful `invert` of the 3x3 identity. -/
def afterIdentity : World := (invert identity3 allOk built).2

/-- The solver after a successful `invert` of the 5-entry matrix. -/
def afterSparse5 : World := (invert sparse5 allOk built).2

/-- The solver after a successful `invert` of the 12-entry matrix. -/
def afterSparse12 : World := (invert sparse12 allOk built).2

/-- The solver after a second `invert` of the 12-entry matrix that was aborted
at the failed `cudaMalloc` of line 144 (trace index 26). -/
def afterAbort : World := (invert sparse12 (failAt 26) afterSparse12).2

/-- The solver after a successful `invert` of the 5-entry matrix followed by a
successful `invert` of the 12-entry matrix in which the allocator hands the
released address 9 out again. -/
def afterRecycle : World := (invert sparse12 (allOkAt 9) afterSparse5).2

/-- The solver after a `solve` following the two `invert` calls. -/
def afterSolve : World := (solve [0, 0, 0, 0] [1, 2, 3, 4] allOk afterRecycle).2

/-! ## Proofs -/

section Rules
variable {α β : Type} {o : Oracle} {P Q R E : World → Prop}

theorem bind_run (x : Op α) (f : α → Op β) (o : Oracle) (w : World) :
    (x >>= f) o w = match x o w with
      | (some a, w1) => f a o w1
      | (none, w1) => (none, w1) := rfl

theorem Triple.seq {x : Op α} {y : Op β} (h1 : Triple o P x R E) (h2 : Triple o R y Q E) :
    Triple o P (x >>= fun _ => y) Q E := by
  intro w hw
  have h := h1 w hw
  rw [bind_run]
  rcases hx : x o w with ⟨_ | a, w1⟩
  · rw [hx] at h; exact h
  · rw [hx] at h; exact h2 w1 h

theorem Triple.read {f : Solver → Op β}
    (h : ∀ s, Triple o (fun w => w.solver = s ∧ P w) (f s) Q E) :
    Triple o P (getSolver >>= f) Q E := by
  intro w hw
  exact h w.solver w ⟨rfl, hw⟩

theorem Triple.conseq {x : Op α} {P1 Q1 : World → Prop} (h : Triple o P1 x Q1 E)
    (hp : ∀ w, P w → P1 w) (hq : ∀ w, Q1 w → Q w) : Triple o P x Q E := by
  intro w hw
  have h1 := h w (hp w hw)
  rcases hx : x o w with ⟨_ | a, w1⟩
  · rw [hx] at h1; exact h1
  · rw [hx] at h1; exact hq w1 h1

theorem Triple.pure {a : α} (h : ∀ w, P w → Q w) : Triple o P (pure a : Op α) Q E := by
  intro w hw
  exact h w hw

theorem Triple.setSolver {f : Solver → Solver}
    (h : ∀ w, P w → Q { w with solver := f w.solver }) : Triple o P (setSolver f) Q E := by
  intro w hw
  exact h w hw

theorem Triple.ite {c : Prop} [Decidable c] {x y : Op α}
    (hx : c → Triple o P x Q E) (hy : ¬c → Triple o P y Q E) :
    Triple o P (if c then x else y) Q E := by
  by_cases hc : c
  · simp only [hc, if_true]; exact hx hc
  · simp only [hc, if_false]; exact hy hc

theorem Triple.checkCudaErrors {c : Call} {eff fl : Reply → World → World}
    (hok : ∀ w, P w → (o w.dev.trace.length).ok = true →
      Q (eff (o w.dev.trace.length) (record c true w)))
    (hfail : ∀ w, P w → (o w.dev.trace.length).ok = false →
      E (fl (o w.dev.trace.length) (record c false w))) :
    Triple o P (checkCudaErrors (issue c eff fl)) Q E := by
  intro w hw
  unfold SofaCudaSolver.checkCudaErrors issue
  cases hs : (o w.dev.trace.length).ok
  · simpa [hs] using hfail w hw hs
  · simpa [hs] using hok w hw hs

theorem Triple.checksolver {c : Call} {eff fl : Reply → World → World}
    (hok : ∀ w, P w → (o w.dev.trace.length).ok = true →
      Q (eff (o w.dev.trace.length) (record c true w)))
    (hfail : ∀ w, P w → (o w.dev.trace.length).ok = false →
      E (fl (o w.dev.trace.length) (record c false w))) :
    Triple o P (checksolver (issue c eff fl)) Q E := by
  intro w hw
  unfold SofaCudaSolver.checksolver issue
  cases hs : (o w.dev.trace.length).ok
  · simpa [hs] using hfail w hw hs
  · simpa [hs] using hok w hw hs

theorem Triple.discard {c : Call} {eff fl : Reply → World → World}
    (hok : ∀ w, P w → (o w.dev.trace.length).ok = true →
      Q (eff (o w.dev.trace.length) (record c true w)))
    (hfail : ∀ w, P w → (o w.dev.trace.length).ok = false →
      Q (fl (o w.dev.trace.length) (record c false w))) :
    Triple o P (discard (issue c eff fl)) Q E := by
  intro w hw
  unfold SofaCudaSolver.discard issue
  cases hs : (o w.dev.trace.length).ok
  · simpa [hs] using hfail w hw hs
  · simpa [hs] using hok w hw hs

theorem Triple.weaken_abort {α : Type} {o : Oracle} {P Q E E1 : World → Prop} {x : Op α}
    (h : Triple o P x Q E1) (he : ∀ w, E1 w → E w) : Triple o P x Q E := by
  intro w hw
  have h1 := h w hw
  rcases hx : x o w with ⟨_ | a, w1⟩
  · rw [hx] at h1; exact he w1 h1
  · rw [hx] at h1; exact h1

end Rules

section WorldLemmas
variable (w : World) (c : Call) (ok : Bool)

@[simp] theorem record_solver : (record c ok w).solver = w.solver := rfl
@[simp] theorem record_mem : (record c ok w).dev.mem = w.dev.mem := rfl
@[simp] theorem record_next : (record c ok w).dev.next = w.dev.next := rfl
@[simp] theorem record_pending : (record c ok w).dev.pending = w.dev.pending := rfl
@[simp] theorem record_infos : (record c ok w).dev.infos = w.dev.infos := rfl
@[simp] theorem record_trace :
    (record c ok w).dev.trace = w.dev.trace ++ [⟨c, ok, w.dev.accessOk c⟩] := rfl
@[simp] theorem record_capAt (q : Nat) : (record c ok w).dev.capAt q = w.dev.capAt q := rfl
@[simp] theorem record_dataAt (q : Nat) : (record c ok w).dev.dataAt q = w.dev.dataAt q := rfl
@[simp] theorem record_pick (a : Nat) : (record c ok w).dev.pick a = w.dev.pick a := rfl

@[simp] theorem untouched_eq (r : Reply) : World.untouched r w = w := rfl

variable (out : Nat → Solver → Solver) (bytes a : Nat)

@[simp] theorem scribbled_dev (r : Reply) : (World.scribbled out r w).dev = w.dev := by
  unfold World.scribbled
  cases r.scribble <;> rfl

@[simp] theorem alloc_solver : (w.alloc out bytes a).solver = out (w.dev.pick a) w.solver := rfl
@[simp] theorem alloc_next :
    (w.alloc out bytes a).dev.next = max w.dev.next (w.dev.pick a + 1) := rfl
@[simp] theorem alloc_pending : (w.alloc out bytes a).dev.pending = w.dev.pending := rfl
@[simp] theorem alloc_infos : (w.alloc out bytes a).dev.infos = w.dev.infos := rfl
@[simp] theorem alloc_trace : (w.alloc out bytes a).dev.trace = w.dev.trace := rfl
theorem alloc_mem (q : Nat) :
    (w.alloc out bytes a).dev.mem q
      = if q = w.dev.pick a then some { cap := bytes, data := [] } else w.dev.mem q := rfl
theorem alloc_capAt (q : Nat) :
    (w.alloc out bytes a).dev.capAt q
      = if q = w.dev.pick a then some bytes else w.dev.capAt q := by
  unfold Device.capAt
  rw [alloc_mem]
  split <;> rfl
theorem alloc_dataAt (q : Nat) :
    (w.alloc out bytes a).dev.dataAt q = if q = w.dev.pick a then [] else w.dev.dataAt q := by
  unfold Device.dataAt
  rw [alloc_mem]
  by_cases h : q = w.dev.pick a <;> simp [h]

variable (p : Nat)

@[simp] theorem free_solver : (w.free p).solver = w.solver := rfl
@[simp] theorem free_next : (w.free p).dev.next = w.dev.next := rfl
@[simp] theorem free_pending : (w.free p).dev.pending = w.dev.pending := rfl
@[simp] theorem free_infos : (w.free p).dev.infos = w.dev.infos := rfl
@[simp] theorem free_trace : (w.free p).dev.trace = w.dev.trace := rfl
theorem free_mem (q : Nat) :
    (w.free p).dev.mem q = if q = p then none else w.dev.mem q := rfl
theorem free_capAt (q : Nat) :
    (w.free p).dev.capAt q = if q = p then none else w.dev.capAt q := by
  unfold Device.capAt
  rw [free_mem]
  split <;> rfl
theorem free_dataAt (q : Nat) :
    (w.free p).dev.dataAt q = if q = p then [] else w.dev.dataAt q := by
  unfold Device.dataAt
  rw [free_mem]
  by_cases h : q = p <;> simp [h]

variable (t : Transfer)

@[simp] theorem enqueue_solver : (w.enqueue t).solver = w.solver := rfl
@[simp] theorem enqueue_mem : (w.enqueue t).dev.mem = w.dev.mem := rfl
@[simp] theorem enqueue_next : (w.enqueue t).dev.next = w.dev.next := rfl
@[simp] theorem enqueue_pending : (w.enqueue t).dev.pending = w.dev.pending ++ [t] := rfl
@[simp] theorem enqueue_infos : (w.enqueue t).dev.infos = w.dev.infos := rfl
@[simp] theorem enqueue_trace : (w.enqueue t).dev.trace = w.dev.trace := rfl
@[simp] theorem enqueue_capAt (q : Nat) : (w.enqueue t).dev.capAt q = w.dev.capAt q := rfl
@[simp] theorem enqueue_dataAt (q : Nat) : (w.enqueue t).dev.dataAt q = w.dev.dataAt q := rfl

@[simp] theorem sync_solver : w.sync.solver = w.solver := rfl
@[simp] theorem sync_mem : w.sync.dev.mem = flush w.dev.pending w.dev.mem := rfl
@[simp] theorem sync_next : w.sync.dev.next = w.dev.next := rfl
@[simp] theorem sync_pending : w.sync.dev.pending = [] := rfl
@[simp] theorem sync_infos : w.sync.dev.infos = w.dev.infos := rfl
@[simp] theorem sync_trace : w.sync.dev.trace = w.dev.trace := rfl

@[simp] theorem newInfo_solver : (w.newInfo out).solver = out w.dev.next w.solver := rfl
@[simp] theorem newInfo_mem : (w.newInfo out).dev.mem = w.dev.mem := rfl
@[simp] theorem newInfo_next : (w.newInfo out).dev.next = w.dev.next + 1 := rfl
@[simp] theorem newInfo_pending : (w.newInfo out).dev.pending = w.dev.pending := rfl
@[simp] theorem newInfo_trace : (w.newInfo out).dev.trace = w.dev.trace := rfl
@[simp] theorem newInfo_capAt (q : Nat) : (w.newInfo out).dev.capAt q = w.dev.capAt q := rfl
@[simp] theorem newInfo_dataAt (q : Nat) : (w.newInfo out).dev.dataAt q = w.dev.dataAt q := rfl

@[simp] theorem newHandle_solver : (w.newHandle out).solver = out w.dev.next w.solver := rfl
@[simp] theorem newHandle_mem : (w.newHandle out).dev.mem = w.dev.mem := rfl
@[simp] theorem newHandle_next : (w.newHandle out).dev.next = w.dev.next + 1 := rfl
@[simp] theorem newHandle_pending : (w.newHandle out).dev.pending = w.dev.pending := rfl
@[simp] theorem newHandle_infos : (w.newHandle out).dev.infos = w.dev.infos := rfl
@[simp] theorem newHandle_trace : (w.newHandle out).dev.trace = w.dev.trace := rfl
@[simp] theorem newHandle_capAt (q : Nat) : (w.newHandle out).dev.capAt q = w.dev.capAt q := rfl

variable (rows nnz rowPtr colsInd info values x : Nat) (sol : List Int)

@[simp] theorem analysed_solver : (w.analysed rows nnz rowPtr colsInd info).solver = w.solver := rfl
@[simp] theorem analysed_mem : (w.analysed rows nnz rowPtr colsInd info).dev.mem = w.dev.mem := rfl
@[simp] theorem analysed_next :
    (w.analysed rows nnz rowPtr colsInd info).dev.next = w.dev.next := rfl
@[simp] theorem analysed_pending :
    (w.analysed rows nnz rowPtr colsInd info).dev.pending = w.dev.pending := rfl
@[simp] theorem analysed_trace :
    (w.analysed rows nnz rowPtr colsInd info).dev.trace = w.dev.trace := rfl
@[simp] theorem analysed_capAt (q : Nat) :
    (w.analysed rows nnz rowPtr colsInd info).dev.capAt q = w.dev.capAt q := rfl
@[simp] theorem analysed_dataAt (q : Nat) :
    (w.analysed rows nnz rowPtr colsInd info).dev.dataAt q = w.dev.dataAt q := rfl

@[simp] theorem factored_solver : (w.factored nnz values info).solver = w.solver := rfl
@[simp] theorem factored_mem : (w.factored nnz values info).dev.mem = w.dev.mem := rfl
@[simp] theorem factored_next : (w.factored nnz values info).dev.next = w.dev.next := rfl
@[simp] theorem factored_pending : (w.factored nnz values info).dev.pending = w.dev.pending := rfl
@[simp] theorem factored_trace : (w.factored nnz values info).dev.trace = w.dev.trace := rfl
@[simp] theorem factored_capAt (q : Nat) :
    (w.factored nnz values info).dev.capAt q = w.dev.capAt q := rfl
@[simp] theorem factored_dataAt (q : Nat) :
    (w.factored nnz values info).dev.dataAt q = w.dev.dataAt q := rfl

@[simp] theorem solved_solver : (w.solved rows x sol).solver = w.solver := rfl
@[simp] theorem solved_next : (w.solved rows x sol).dev.next = w.dev.next := rfl
@[simp] theorem solved_pending : (w.solved rows x sol).dev.pending = w.dev.pending := rfl
@[simp] theorem solved_infos : (w.solved rows x sol).dev.infos = w.dev.infos := rfl
@[simp] theorem solved_trace : (w.solved rows x sol).dev.trace = w.dev.trace := rfl

end WorldLemmas

theorem complete_cap (mem : Nat → Option Buffer) (t : Transfer) (q : Nat) :
    (Transfer.complete mem t q).map Buffer.cap = (mem q).map Buffer.cap := by
  cases t with
  | hostToDevice dst src es cnt =>
    cases h : mem dst with
    | none => simp [Transfer.complete, h]
    | some b =>
      by_cases hc : es * cnt ≤ b.cap
      · by_cases hq : q = dst
        · subst hq; simp [Transfer.complete, h, hc, setMem]
        · simp [Transfer.complete, h, hc, setMem, hq]
      · simp [Transfer.complete, h, hc]
  | deviceToHost src es cnt => rfl

theorem flush_cap (ts : List Transfer) (mem : Nat → Option Buffer) (q : Nat) :
    (flush ts mem q).map Buffer.cap = (mem q).map Buffer.cap := by
  induction ts generalizing mem with
  | nil => rfl
  | cons t ts ih =>
    show (flush ts (Transfer.complete mem t) q).map Buffer.cap = _
    rw [ih, complete_cap]

@[simp] theorem sync_capAt (w : World) (q : Nat) : w.sync.dev.capAt q = w.dev.capAt q := by
  unfold Device.capAt
  rw [sync_mem, flush_cap]

@[simp] theorem solved_capAt (w : World) (rows x : Nat) (sol : List Int) (q : Nat) :
    (w.solved rows x sol).dev.capAt q = w.dev.capAt q := by
  unfold Device.capAt World.solved
  cases h : w.dev.mem x with
  | none => simp [h]
  | some b =>
    by_cases hq : q = x
    · subst hq; simp [h, setMem]
    · simp [h, setMem, hq]

theorem mem_none_iff_capAt (w : World) (q : Nat) : w.dev.mem q = none ↔ w.dev.capAt q = none := by
  unfold Device.capAt
  cases w.dev.mem q <;> simp

theorem rangeOk_of_capAt {w : World} {q : Nat} {cap bytes : Nat}
    (h : w.dev.capAt q = some cap) (hb : bytes ≤ cap) : rangeOk w.dev.mem q bytes = true := by
  unfold Device.capAt at h
  unfold rangeOk
  cases hm : w.dev.mem q with
  | none => simp [hm] at h
  | some b =>
    simp [hm] at h
    simp [h, hb]

theorem not_allOk {o : Oracle} {i : Nat} (h : (o i).ok = false) : ¬AllOk o := by
  intro ho
  have := ho i
  simp [h] at this

theorem intSucc_eq {a : Nat} (h : a + 1 < 2 ^ 31) : intSucc a = a + 1 := by
  unfold intSucc
  rw [if_pos h]

/-- The address handed out by the allocator is not a live allocation. -/
theorem Base.pick_free {w : World} (hb : Base w) (a : Nat) :
    w.dev.capAt (w.dev.pick a) = none := by
  unfold Device.pick
  split
  · next h => exact (mem_none_iff_capAt w a).mp h.2
  · exact hb.fresh _ (Nat.le_refl _)

/-- The address handed out by the allocator is not null. -/
theorem Base.pick_ne_zero {w : World} (hb : Base w) (a : Nat) : w.dev.pick a ≠ 0 := by
  unfold Device.pick
  split
  · next h => exact h.1
  · have := hb.pos; omega

theorem Base.ne_zero_of_capAt {w : World} (hb : Base w) {q : Nat} {c : Nat}
    (h : w.dev.capAt q = some c) : q ≠ 0 := by
  rintro rfl
  simp [hb.null] at h

theorem Base.ne_pick_of_capAt {w : World} (hb : Base w) {q : Nat} {c : Nat}
    (h : w.dev.capAt q = some c) (a : Nat) : q ≠ w.dev.pick a := by
  rintro rfl
  simp [hb.pick_free a] at h

theorem Base.alloc_base {w : World} (hb : Base w) (out : Nat → Solver → Solver) (bytes a : Nat) :
    Base (w.alloc out bytes a) := by
  refine ⟨?_, ?_, ?_⟩
  · intro p hp
    rw [alloc_next] at hp
    rw [alloc_capAt, if_neg (by omega)]
    exact hb.fresh p (by omega)
  · rw [alloc_capAt, if_neg (Ne.symm (hb.pick_ne_zero a))]
    exact hb.null
  · rw [alloc_next]
    have := hb.pos
    omega

theorem Base.free_base {w : World} (hb : Base w) (p : Nat) : Base (w.free p) := by
  refine ⟨?_, ?_, hb.pos⟩
  · intro q hq
    rw [free_capAt]
    split
    · rfl
    · exact hb.fresh q hq
  · rw [free_capAt]
    split
    · rfl
    · exact hb.null

/-- A transformation that keeps every capacity and does not lower `next` keeps
the device facts. -/
theorem Base.carry_base {w w1 : World} (hb : Base w)
    (hc : ∀ q, w1.dev.capAt q = w.dev.capAt q) (hn : w.dev.next ≤ w1.dev.next) : Base w1 := by
  refine ⟨?_, ?_, ?_⟩
  · intro p hp
    rw [hc]
    exact hb.fresh p (by omega)
  · rw [hc]; exact hb.null
  · have := hb.pos; omega

section SlotLemmas
variable (sl sl1 : Slot) (p : Nat) (s : Solver)

theorem Slot.get_set : sl1.get (sl.set p s) = if sl1 = sl then p else sl1.get s := by
  cases sl <;> cases sl1 <;> rfl

@[simp] theorem Slot.get_set_same : sl.get (sl.set p s) = p := by
  rw [Slot.get_set, if_pos rfl]

theorem Slot.get_set_ne (h : sl1 ≠ sl) : sl1.get (sl.set p s) = sl1.get s := by
  rw [Slot.get_set, if_neg h]

@[simp] theorem Slot.set_rowsA : (sl.set p s).rowsA = s.rowsA := by cases sl <;> rfl
@[simp] theorem Slot.set_colsA : (sl.set p s).colsA = s.colsA := by cases sl <;> rfl
@[simp] theorem Slot.set_nnz : (sl.set p s).nnz = s.nnz := by cases sl <;> rfl
@[simp] theorem Slot.set_host_RowPtr : (sl.set p s).host_RowPtr = s.host_RowPtr := by
  cases sl <;> rfl
@[simp] theorem Slot.set_host_ColsInd : (sl.set p s).host_ColsInd = s.host_ColsInd := by
  cases sl <;> rfl
@[simp] theorem Slot.set_host_values : (sl.set p s).host_values = s.host_values := by
  cases sl <;> rfl
@[simp] theorem Slot.set_firstStep : (sl.set p s).firstStep = s.firstStep := by cases sl <;> rfl

end SlotLemmas

theorem Ext.ext_logged {n : Nat} {t : List Event} {w : World} (h : Ext n t w) (c : Call)
    (ok : Bool) (hc : Event.safe n ⟨c, ok, w.dev.accessOk c⟩) : Ext n t (record c ok w) := by
  obtain ⟨evs, h1, h2⟩ := h
  refine ⟨evs ++ [⟨c, ok, w.dev.accessOk c⟩], by simp [h1], ?_⟩
  intro e he
  simp at he
  rcases he with he | he
  · exact h2 e he
  · rw [he]; exact hc

theorem Ext.of_trace {n : Nat} {t : List Event} {w w1 : World} (h : Ext n t w)
    (ht : w1.dev.trace = w.dev.trace) : Ext n t w1 := by
  obtain ⟨evs, h1, h2⟩ := h
  exact ⟨evs, by rw [ht, h1], h2⟩

theorem Ext.refl (n : Nat) (w : World) : Ext n w.dev.trace w :=
  ⟨[], by simp, by simp⟩

theorem Ext.all_safe {n : Nat} {t : List Event} {w : World} (h : Ext n t w)
    (h0 : ∀ e ∈ t, e.safe n) : ∀ e ∈ w.dev.trace, e.safe n := by
  obtain ⟨evs, h1, h2⟩ := h
  intro e he
  rw [h1] at he
  rcases List.mem_append.mp he with he | he
  · exact h0 e he
  · exact h2 e he

/-- What a failing call leaves in its output argument does not touch the trace. -/
theorem Ext.scribbled {n : Nat} {t : List Event} {w : World} (h : Ext n t w)
    (out : Nat → Solver → Solver) (r : Reply) : Ext n t (World.scribbled out r w) :=
  h.of_trace (by rw [scribbled_dev])

theorem safe_record {n : Nat} {c : Call} {ok : Bool} {d : Device} (h : d.accessOk c = true)
    (hs : ∀ h rows b x i buf, c = .cusolverSpDcsrcholSolve h rows b x i buf → rows = n) :
    Event.safe n ⟨c, ok, d.accessOk c⟩ :=
  ⟨h, hs⟩

theorem Hdr.of_solver {M : HostMatrix} {w w1 : World} (h : Hdr M w)
    (hs : w1.solver = w.solver) : Hdr M w1 := by
  obtain ⟨h1, h2, h3, h4, h5, h6⟩ := h
  refine ⟨?_, ?_, ?_, ?_, ?_, ?_⟩ <;> simp only [hs] <;> assumption

theorem some_of_ne_none {α : Type} {x : Option α} (h : x ≠ none) : ∃ c, x = some c := by
  cases x with
  | none => exact absurd rfl h
  | some c => exact ⟨c, rfl⟩

section OwnsLemmas
variable {S : Shape} {w w1 : World}

theorem Owns.carry_owns (h : Owns S w) (hs : ∀ sl : Slot, sl.get w1.solver = sl.get w.solver)
    (hc : ∀ q, w1.dev.capAt q = w.dev.capAt q) : Owns S w1 := by
  refine ⟨?_, ?_⟩
  · intro sl c hsl
    rw [hs, hc]
    exact h.cap sl c hsl
  · intro sl sl1 h1 h2 hne
    rw [hs, hs]
    exact h.apart sl sl1 h1 h2 hne

theorem Owns.drop_owns (h : Owns S w) (sl : Slot) : Owns (Function.update S sl none) w := by
  refine ⟨?_, ?_⟩
  · intro sl1 c hsl
    by_cases he : sl1 = sl
    · subst he; simp at hsl
    · rw [Function.update_noteq he] at hsl
      exact h.cap sl1 c hsl
  · intro sl1 sl2 h1 h2 hne
    by_cases he1 : sl1 = sl
    · subst he1; simp at h1
    · by_cases he2 : sl2 = sl
      · subst he2; simp at h2
      · rw [Function.update_noteq he1] at h1
        rw [Function.update_noteq he2] at h2
        exact h.apart sl1 sl2 h1 h2 hne

theorem Owns.alloc_owns (h : Owns S w) (hb : Base w) (sl : Slot) (bytes a : Nat) :
    Owns (Function.update S sl (some bytes)) (w.alloc (Slot.set sl) bytes a) := by
  have live : ∀ sl1, sl1 ≠ sl → S sl1 ≠ none →
      sl1.get (sl.set (w.dev.pick a) w.solver) ≠ w.dev.pick a := by
    intro sl1 hne hs
    rw [Slot.get_set_ne _ _ _ _ hne]
    obtain ⟨c, hc⟩ := some_of_ne_none hs
    exact hb.ne_pick_of_capAt (h.cap sl1 c hc) a
  refine ⟨?_, ?_⟩
  · intro sl1 c hsl
    rw [alloc_solver, alloc_capAt]
    by_cases he : sl1 = sl
    · subst he
      simp at hsl
      simp [hsl]
    · rw [Function.update_noteq he] at hsl
      rw [if_neg (live sl1 he (by simp [hsl])), Slot.get_set_ne _ _ _ _ he]
      exact h.cap sl1 c hsl
  · intro sl1 sl2 h1 h2 hne
    rw [alloc_solver]
    by_cases he1 : sl1 = sl
    · subst he1
      have he2 : sl2 ≠ sl1 := fun e => hne e.symm
      rw [Function.update_noteq he2] at h2
      rw [Slot.get_set_same]
      exact Ne.symm (live sl2 he2 h2)
    · rw [Function.update_noteq he1] at h1
      by_cases he2 : sl2 = sl
      · subst he2
        rw [Slot.get_set_same]
        exact live sl1 he1 h1
      · rw [Function.update_noteq he2] at h2
        rw [Slot.get_set_ne _ _ _ _ he1, Slot.get_set_ne _ _ _ _ he2]
        exact h.apart sl1 sl2 h1 h2 hne

theorem Owns.free_owns (h : Owns S w) (hb : Base w) (sl : Slot)
    (hn : S sl = none → sl.get w.solver = 0) :
    Owns (Function.update S sl none) (w.free (sl.get w.solver)) := by
  refine ⟨?_, ?_⟩
  · intro sl1 c hsl
    by_cases he : sl1 = sl
    · subst he; simp at hsl
    · rw [Function.update_noteq he] at hsl
      have hq : sl1.get w.solver ≠ sl.get w.solver := by
        by_cases hs : S sl = none
        · rw [hn hs]
          exact hb.ne_zero_of_capAt (h.cap sl1 c hsl)
        · exact h.apart sl1 sl (by simp [hsl]) hs he
      rw [free_solver, free_capAt, if_neg hq]
      exact h.cap sl1 c hsl
  · intro sl1 sl2 h1 h2 hne
    have := (h.drop_owns sl).apart sl1 sl2 h1 h2 hne
    exact this

end OwnsLemmas

section HeldLemmas
variable {S : Shape} {d : Option Slot} {w w1 : World}

theorem Held.carry_held (h : Held S d w) (hs : ∀ sl : Slot, sl.get w1.solver = sl.get w.solver)
    (hc : ∀ q, w1.dev.capAt q = w.dev.capAt q) (hn : w.dev.next ≤ w1.dev.next) :
    Held S d w1 :=
  ⟨h.base.carry_base hc hn, h.owns.carry_owns hs hc, fun sl h1 h2 => by rw [hs]; exact h.null sl h1 h2⟩

theorem Held.drop_held (h : Held S none w) (sl : Slot) :
    Held (Function.update S sl none) (some sl) w := by
  refine ⟨h.base, h.owns.drop_owns sl, ?_⟩
  intro sl1 h1 h2
  have he : sl1 ≠ sl := fun e => h2 (by rw [e])
  rw [Function.update_noteq he] at h1
  exact h.null sl1 h1 (by simp)

theorem Held.free_held (h : Held S none w) (sl : Slot) :
    Held (Function.update S sl none) (some sl) (w.free (sl.get w.solver)) := by
  refine ⟨h.base.free_base _, h.owns.free_owns h.base sl (fun hs => h.null sl hs (by simp)), ?_⟩
  intro sl1 h1 h2
  have he : sl1 ≠ sl := fun e => h2 (by rw [e])
  rw [Function.update_noteq he] at h1
  exact h.null sl1 h1 (by simp)

theorem Held.alloc_held (h : Held S d w) (sl : Slot) (hd : ∀ sl1, d = some sl1 → sl1 = sl)
    (bytes a : Nat) :
    Held (Function.update S sl (some bytes)) none (w.alloc (Slot.set sl) bytes a) := by
  refine ⟨h.base.alloc_base _ _ _, h.owns.alloc_owns h.base sl bytes a, ?_⟩
  intro sl1 h1 _
  have he : sl1 ≠ sl := by
    rintro rfl
    simp at h1
  rw [Function.update_noteq he] at h1
  rw [alloc_solver, Slot.get_set_ne _ _ _ _ he]
  exact h.null sl1 h1 (fun e => he (hd sl1 e))

/-- A slot that owns an allocation holds another address than any other slot,
owning or null. -/
theorem Held.get_ne (h : Held S none w) (sl sl1 : Slot) (hs : S sl ≠ none) (hne : sl ≠ sl1) :
    sl.get w.solver ≠ sl1.get w.solver := by
  by_cases h1 : S sl1 = none
  · rw [h.null sl1 h1 (by simp)]
    obtain ⟨c, hc⟩ := some_of_ne_none hs
    exact h.base.ne_zero_of_capAt (h.owns.cap sl c hc)
  · exact h.owns.apart sl sl1 hs h1 hne

end HeldLemmas

section MidLemmas
variable {S : Shape} {d : Option Slot} {n : Nat} {t : List Event} {M : HostMatrix} {f : Bool}
  {w w1 : World}

theorem Mid.logged (h : Mid S d n t M f w) (c : Call) (ok : Bool)
    (hc : Event.safe n ⟨c, ok, w.dev.accessOk c⟩) : Mid S d n t M f (record c ok w) :=
  ⟨h.held.carry_held (fun _ => rfl) (fun _ => rfl) (Nat.le_refl _), h.ext.ext_logged c ok hc,
    h.hdr.of_solver rfl, h.first⟩

/-- A transformation that leaves the members, the capacities and the trace as
they are keeps `Mid`. -/
theorem Mid.same (h : Mid S d n t M f w) (hs : w1.solver = w.solver)
    (hc : ∀ q, w1.dev.capAt q = w.dev.capAt q) (hn : w.dev.next ≤ w1.dev.next)
    (ht : w1.dev.trace = w.dev.trace) : Mid S d n t M f w1 :=
  ⟨h.held.carry_held (fun _ => by rw [hs]) hc hn, h.ext.of_trace ht, h.hdr.of_solver hs,
    by rw [hs]; exact h.first⟩

theorem Mid.alloc (h : Mid S d n t M f w) (sl : Slot) (hd : ∀ sl1, d = some sl1 → sl1 = sl)
    (bytes a : Nat) :
    Mid (Function.update S sl (some bytes)) none n t M f (w.alloc (Slot.set sl) bytes a) := by
  obtain ⟨h1, h2, h3, h4, h5, h6⟩ := h.hdr
  exact ⟨h.held.alloc_held sl hd bytes a, h.ext.of_trace rfl,
    ⟨by simp [*], by simp [*], by simp [*], by simp [*], by simp [*], by simp [*]⟩,
    by simp [h.first]⟩

theorem Mid.free (h : Mid S none n t M f w) (sl : Slot) :
    Mid (Function.update S sl none) (some sl) n t M f (w.free (sl.get w.solver)) :=
  ⟨h.held.free_held sl, h.ext.of_trace rfl, h.hdr.of_solver rfl, h.first⟩

theorem Mid.drop (h : Mid S none n t M f w) (sl : Slot) :
    Mid (Function.update S sl none) (some sl) n t M f w :=
  ⟨h.held.drop_held sl, h.ext, h.hdr, h.first⟩

end MidLemmas

theorem Triple.of_false {α : Type} {o : Oracle} {P Q E : World → Prop} {x : Op α}
    (h : ∀ w, P w → False) : Triple o P x Q E :=
  fun w hw => (h w hw).elim

section StageChain
variable {o : Oracle} {S : Shape} {d : Option Slot} {n : Nat} {t : List Event} {M : HostMatrix}
  {f : Bool}

/-- Lines 119-126: reading the members from `M`. -/
theorem readMatrix_spec :
    Triple o
      (fun w => Held S none w ∧ Ext n t w ∧ w.solver.firstStep = f)
      (readMatrix M) (Mid S none n t M f) (Ext n t) := by
  unfold readMatrix
  apply Triple.setSolver
  rintro w ⟨hh, he, hf⟩
  exact ⟨hh.carry_held (fun sl => by cases sl <;> rfl) (fun _ => rfl) (Nat.le_refl _),
    he.of_trace rfl, ⟨rfl, rfl, rfl, rfl, rfl, rfl⟩, hf⟩

/-- Statement `checkCudaErrors(cudaMalloc(&member, bytes))` for the member of
slot `sl`, which owns nothing when the statement is reached. -/
theorem malloc_spec (sl : Slot) (g : Solver → Nat) (bytes : Nat)
    (hd : ∀ sl1, d = some sl1 → sl1 = sl)
    (s : Solver) (hg : ∀ w, w.solver = s → Mid S d n t M f w → g w.solver = bytes) :
    Triple o
      (fun w => w.solver = s ∧ Mid S d n t M f w)
      (checkCudaErrors (cudaMalloc (Slot.set sl) (g s)))
      (Mid (Function.update S sl (some bytes)) none n t M f) (Ext n t) := by
  unfold cudaMalloc
  apply Triple.checkCudaErrors
  · rintro w ⟨rfl, hm⟩ -
    rw [hg w rfl hm]
    exact (hm.logged _ true (safe_record (by rfl) (by simp))).alloc sl hd bytes _
  · rintro w ⟨rfl, hm⟩ -
    exact (hm.ext.ext_logged _ false (safe_record (by rfl) (by simp))).scribbled _ _

/-- Statement `if(member) cudaFree(member);` for the member of slot `sl`. -/
theorem free_spec (sl : Slot) (s : Solver) :
    Triple o
      (fun w => w.solver = s ∧ Mid S none n t M f w)
      (if sl.get s ≠ 0 then discard (cudaFree (sl.get s)) else pure ())
      (Mid (Function.update S sl none) (some sl) n t M f) (Ext n t) := by
  apply Triple.ite
  · intro _
    unfold cudaFree
    apply Triple.discard
    · rintro w ⟨rfl, hm⟩ -
      exact (hm.logged _ true (safe_record (by rfl) (by simp))).free sl
    · rintro w ⟨rfl, hm⟩ -
      exact (hm.logged _ false (safe_record (by rfl) (by simp))).drop sl
  · intro _
    apply Triple.pure
    rintro w ⟨-, hm⟩
    exact hm.drop sl

theorem firstShape_eq (M : HostMatrix) :
    Function.update (Function.update (Function.update (Function.update emptyShape
      .rowPtr (some (4 * (M.rowBSize + 1)))) .perm (some (8 * M.colBSize)))
      .x (some (8 * M.colBSize))) .b (some (8 * M.colBSize)) = firstShape M := by
  funext sl
  cases sl <;> rfl

/-- Lines 132-139: the body of `if(firstStep)`. -/
theorem firstStepBody_spec (hr : M.rowBSize + 1 < 2 ^ 31) :
    Triple o (Mid emptyShape none n t M true) firstStepBody
      (Mid (firstShape M) none n t M false) (Ext n t) := by
  unfold firstStepBody
  apply Triple.read; intro s
  apply Triple.seq (malloc_spec .rowPtr (fun s => 4 * intSucc s.rowsA) (4 * (M.rowBSize + 1))
    (by simp) s (fun w _ hm => by show 4 * intSucc w.solver.rowsA = _; rw [hm.hdr.rows, intSucc_eq hr]))
  apply Triple.read; intro s
  apply Triple.seq (malloc_spec .perm (fun s => 8 * s.colsA) (8 * M.colBSize)
    (by simp) s (fun w _ hm => by show 8 * w.solver.colsA = _; rw [hm.hdr.cols]))
  apply Triple.read; intro s
  apply Triple.seq (malloc_spec .x (fun s => 8 * s.colsA) (8 * M.colBSize)
    (by simp) s (fun w _ hm => by show 8 * w.solver.colsA = _; rw [hm.hdr.cols]))
  apply Triple.read; intro s
  apply Triple.seq (malloc_spec .b (fun s => 8 * s.colsA) (8 * M.colBSize)
    (by simp) s (fun w _ hm => by show 8 * w.solver.colsA = _; rw [hm.hdr.cols]))
  apply Triple.setSolver
  intro w hm
  rw [firstShape_eq] at hm
  exact ⟨hm.held.carry_held (fun sl => by cases sl <;> rfl) (fun _ => rfl) (Nat.le_refl _),
    hm.ext.of_trace rfl,
    ⟨hm.hdr.rows, hm.hdr.cols, hm.hdr.nnz, hm.hdr.rowPtr, hm.hdr.colsInd, hm.hdr.values⟩, rfl⟩

/-- Lines 129-140: `if(firstStep) { ... }`. -/
theorem firstStepAlloc_spec (hr : M.rowBSize + 1 < 2 ^ 31) (hS : f = true → S = emptyShape) :
    Triple o (Mid S none n t M f) firstStepAlloc
      (Mid (if f = true then firstShape M else S) none n t M false) (Ext n t) := by
  unfold firstStepAlloc
  apply Triple.read; intro s
  cases f
  · apply Triple.ite
    · intro hc
      apply Triple.of_false
      rintro w ⟨rfl, hm⟩
      rw [hm.first] at hc
      exact absurd hc (by simp)
    · intro _
      apply Triple.pure
      rintro w ⟨-, hm⟩
      simpa using hm
  · obtain rfl := hS rfl
    apply Triple.ite
    · intro _
      refine (firstStepBody_spec hr).conseq (fun w h => h.2) (fun w h => ?_)
      simpa using h
    · intro hc
      apply Triple.of_false
      rintro w ⟨rfl, hm⟩
      rw [hm.first] at hc
      exact absurd rfl hc

/-- Lines 141-144: release and re-allocate the two `nnz`-sized buffers. -/
theorem reallocNnz_spec :
    Triple o (Mid S none n t M f) reallocNnz
      (Mid (Function.update (Function.update S .colsInd (some (4 * M.colsValue.length)))
        .values (some (8 * M.colsValue.length))) none n t M f) (Ext n t) := by
  unfold reallocNnz
  apply Triple.read; intro s
  apply Triple.seq (free_spec .colsInd s)
  apply Triple.read; intro s
  apply Triple.seq (malloc_spec .colsInd (fun s => 4 * s.nnz) (4 * M.colsValue.length)
    (fun _ h => (Option.some.inj h).symm) s
    (fun w _ hm => by show 4 * w.solver.nnz = _; rw [hm.hdr.nnz]))
  apply Triple.read; intro s
  apply Triple.seq (free_spec .values s)
  apply Triple.read; intro s
  refine (malloc_spec .values (fun s => 8 * s.nnz) (8 * M.colsValue.length)
    (fun _ h => (Option.some.inj h).symm) s
    (fun w _ hm => by show 8 * w.solver.nnz = _; rw [hm.hdr.nnz])).conseq
    (fun w h => h) (fun w h => ?_)
  simpa [Function.update_idem] using h

end StageChain

theorem flush_append (ps ts : List Transfer) (mem : Nat → Option Buffer) :
    flush (ps ++ ts) mem = flush ts (flush ps mem) := by
  unfold flush
  rw [List.foldl_append]

/-- A host-to-device copy that fits its destination writes its first `cnt`
elements there and leaves every other allocation as it was. -/
theorem complete_write (mem : Nat → Option Buffer) (dst : Nat) (src : List Int) (es cnt : Nat)
    (c : Nat) (hc : (mem dst).map Buffer.cap = some c) (hfit : es * cnt ≤ c)
    (hlen : cnt ≤ src.length) :
    (∃ b, Transfer.complete mem (.hostToDevice dst src es cnt) dst = some b ∧
        b.data.take cnt = src.take cnt) ∧
      ∀ q, q ≠ dst → Transfer.complete mem (.hostToDevice dst src es cnt) q = mem q := by
  cases hm : mem dst with
  | none => simp [hm] at hc
  | some b =>
    simp [hm] at hc
    have hfit2 : es * cnt ≤ b.cap := by omega
    constructor
    · refine ⟨{ b with data := src.take cnt ++ b.data.drop cnt }, ?_, ?_⟩
      · simp [Transfer.complete, hm, hfit2, setMem]
      · show (src.take cnt ++ b.data.drop cnt).take cnt = src.take cnt
        rw [List.take_append_of_le_length (by simp; omega)]
        simp
    · intro q hq
      simp [Transfer.complete, hm, hfit2, setMem, hq]

/-- Completion of a queue that ends with the three transfers of `invert M`
leaves the arrays of `M` at the start of the three device buffers. -/
theorem landed_after_sync {M : HostMatrix} {w : World} (ps : List Transfer) {cR : Nat}
    (hq : w.dev.pending = ps ++ transfers M w.solver)
    (hR : w.dev.capAt w.solver.device_RowPtr = some cR) (hfit : 4 * (M.rowBSize + 1) ≤ cR)
    (hC : w.dev.capAt w.solver.device_ColsInd = some (4 * M.colsValue.length))
    (hV : w.dev.capAt w.solver.device_values = some (8 * M.colsValue.length))
    (hRC : w.solver.device_RowPtr ≠ w.solver.device_ColsInd)
    (hRV : w.solver.device_RowPtr ≠ w.solver.device_values)
    (hCV : w.solver.device_ColsInd ≠ w.solver.device_values)
    (hwf : WfCsr M) : Landed M w.sync := by
  obtain ⟨hl1, hl2⟩ := hwf
  have h0R : (flush ps w.dev.mem w.solver.device_RowPtr).map Buffer.cap = some cR := by
    rw [flush_cap]; exact hR
  obtain ⟨⟨bR, hbR, hdR⟩, hoR⟩ := complete_write (flush ps w.dev.mem) w.solver.device_RowPtr
    M.rowBegin 4 (M.rowBSize + 1) cR h0R hfit (by omega)
  have h1C : (Transfer.complete (flush ps w.dev.mem)
      (.hostToDevice w.solver.device_RowPtr M.rowBegin 4 (M.rowBSize + 1))
      w.solver.device_ColsInd).map Buffer.cap = some (4 * M.colsValue.length) := by
    rw [complete_cap, flush_cap]; exact hC
  obtain ⟨⟨bC, hbC, hdC⟩, hoC⟩ := complete_write _ w.solver.device_ColsInd
    M.colsIndex 4 M.colsValue.length _ h1C (le_refl _) (by omega)
  have h2V : (Transfer.complete (Transfer.complete (flush ps w.dev.mem)
      (.hostToDevice w.solver.device_RowPtr M.rowBegin 4 (M.rowBSize + 1)))
      (.hostToDevice w.solver.device_ColsInd M.colsIndex 4 M.colsValue.length)
      w.solver.device_values).map Buffer.cap = some (8 * M.colsValue.length) := by
    rw [complete_cap, complete_cap, flush_cap]; exact hV
  obtain ⟨⟨bV, hbV, hdV⟩, hoV⟩ := complete_write _ w.solver.device_values
    M.colsValue 8 M.colsValue.length _ h2V (le_refl _) (le_refl _)
  have hmem : w.sync.dev.mem = Transfer.complete (Transfer.complete (Transfer.complete
      (flush ps w.dev.mem)
      (.hostToDevice w.solver.device_RowPtr M.rowBegin 4 (M.rowBSize + 1)))
      (.hostToDevice w.solver.device_ColsInd M.colsIndex 4 M.colsValue.length))
      (.hostToDevice w.solver.device_values M.colsValue 8 M.colsValue.length) := by
    rw [sync_mem, hq, flush_append]
    rfl
  refine ⟨?_, ?_, ?_⟩
  · show (w.sync.dev.dataAt w.solver.device_RowPtr).take _ = _
    unfold Device.dataAt
    rw [hmem, hoV _ hRV, hoC _ hRC, hbR]
    exact hdR
  · show (w.sync.dev.dataAt w.solver.device_ColsInd).take _ = _
    unfold Device.dataAt
    rw [hmem, hoV _ hCV, hbC]
    exact hdC
  · show (w.sync.dev.dataAt w.solver.device_values).take _ = _
    unfold Device.dataAt
    rw [hmem, hbV]
    exact hdV

section SendChain
variable {o : Oracle} {S : Shape} {n : Nat} {t : List Event} {M : HostMatrix} {f : Bool}

/-- Statement `checkCudaErrors(cudaMemcpyAsync(device_RowPtr, host_RowPtr, sizeof(int)*(rowsA+1), ...))`. -/
theorem copy_rowPtr_spec (hr : M.rowBSize + 1 < 2 ^ 31)
    (hR : S .rowPtr = some (4 * (M.rowBSize + 1))) (s : Solver) :
    Triple o
      (fun w => w.solver = s ∧ Mid S none n t M f w)
      (checkCudaErrors
        (cudaMemcpyAsyncHostToDevice s.device_RowPtr s.host_RowPtr 4 (intSucc s.rowsA)))
      (fun w => Mid S none n t M f w ∧ Queued 1 M w)
      (Ext n t) := by
  unfold cudaMemcpyAsyncHostToDevice
  have hsafe : ∀ w ok, Mid S none n t M f w → Event.safe n
      ⟨.cudaMemcpyAsyncHostToDevice w.solver.device_RowPtr w.solver.host_RowPtr 4
        (intSucc w.solver.rowsA), ok, w.dev.accessOk (.cudaMemcpyAsyncHostToDevice
          w.solver.device_RowPtr w.solver.host_RowPtr 4 (intSucc w.solver.rowsA))⟩ := by
    intro w ok hm
    refine safe_record ?_ (by simp)
    exact rangeOk_of_capAt (hm.held.owns.cap .rowPtr _ hR)
      (by rw [hm.hdr.rows, intSucc_eq hr])
  apply Triple.checkCudaErrors
  · rintro w ⟨rfl, hm⟩ -
    refine ⟨(hm.logged _ _ (hsafe w true hm)).same rfl (fun _ => rfl) (Nat.le_refl _) rfl,
      ⟨w.dev.pending, ?_⟩⟩
    simp [transfers, hm.hdr.rowPtr, hm.hdr.rows, intSucc_eq hr]
  · rintro w ⟨rfl, hm⟩ -
    exact hm.ext.ext_logged _ _ (hsafe w false hm)

/-- Statement `checkCudaErrors(cudaMemcpyAsync(device_ColsInd, host_ColsInd, sizeof(int)*nnz, ...))`. -/
theorem copy_colsInd_spec (hC : S .colsInd = some (4 * M.colsValue.length)) (s : Solver) :
    Triple o
      (fun w => w.solver = s ∧ Mid S none n t M f w ∧ Queued 1 M w)
      (checkCudaErrors
        (cudaMemcpyAsyncHostToDevice s.device_ColsInd s.host_ColsInd 4 s.nnz))
      (fun w => Mid S none n t M f w ∧ Queued 2 M w)
      (Ext n t) := by
  unfold cudaMemcpyAsyncHostToDevice
  have hsafe : ∀ w ok, Mid S none n t M f w → Event.safe n
      ⟨.cudaMemcpyAsyncHostToDevice w.solver.device_ColsInd w.solver.host_ColsInd 4
        w.solver.nnz, ok, w.dev.accessOk (.cudaMemcpyAsyncHostToDevice
          w.solver.device_ColsInd w.solver.host_ColsInd 4 w.solver.nnz)⟩ := by
    intro w ok hm
    refine safe_record ?_ (by simp)
    exact rangeOk_of_capAt (hm.held.owns.cap .colsInd _ hC) (by rw [hm.hdr.nnz])
  apply Triple.checkCudaErrors
  · rintro w ⟨rfl, hm, ⟨ps, hq⟩⟩ -
    refine ⟨(hm.logged _ _ (hsafe w true hm)).same rfl (fun _ => rfl) (Nat.le_refl _) rfl,
      ⟨ps, ?_⟩⟩
    simp [transfers, hm.hdr.colsInd, hm.hdr.nnz, hq]
  · rintro w ⟨rfl, hm, -⟩ -
    exact hm.ext.ext_logged _ _ (hsafe w false hm)

/-- Statement `checkCudaErrors(cudaMemcpyAsync(device_values, host_values, sizeof(double)*nnz, ...))`. -/
theorem copy_values_spec (hV : S .values = some (8 * M.colsValue.length)) (s : Solver) :
    Triple o
      (fun w => w.solver = s ∧ Mid S none n t M f w ∧ Queued 2 M w)
      (checkCudaErrors
        (cudaMemcpyAsyncHostToDevice s.device_values s.host_values 8 s.nnz))
      (fun w => Mid S none n t M f w ∧ Queued 3 M w)
      (Ext n t) := by
  unfold cudaMemcpyAsyncHostToDevice
  have hsafe : ∀ w ok, Mid S none n t M f w → Event.safe n
      ⟨.cudaMemcpyAsyncHostToDevice w.solver.device_values w.solver.host_values 8
        w.solver.nnz, ok, w.dev.accessOk (.cudaMemcpyAsyncHostToDevice
          w.solver.device_values w.solver.host_values 8 w.solver.nnz)⟩ := by
    intro w ok hm
    refine safe_record ?_ (by simp)
    exact rangeOk_of_capAt (hm.held.owns.cap .values _ hV) (by rw [hm.hdr.nnz])
  apply Triple.checkCudaErrors
  · rintro w ⟨rfl, hm, ⟨ps, hq⟩⟩ -
    refine ⟨(hm.logged _ _ (hsafe w true hm)).same rfl (fun _ => rfl) (Nat.le_refl _) rfl,
      ⟨ps, ?_⟩⟩
    simp [transfers, hm.hdr.values, hm.hdr.nnz, hq]
  · rintro w ⟨rfl, hm, -⟩ -
    exact hm.ext.ext_logged _ _ (hsafe w false hm)

/-- Statement `cudaDeviceSynchronize();` of line 150. -/
theorem sync_spec (hR : S .rowPtr = some (4 * (M.rowBSize + 1)))
    (hC : S .colsInd = some (4 * M.colsValue.length))
    (hV : S .values = some (8 * M.colsValue.length)) :
    Triple o
      (fun w => Mid S none n t M f w ∧ Queued 3 M w)
      (discard cudaDeviceSynchronize)
      (fun w => Mid S none n t M f w ∧ Synced o M w)
      (Ext n t) := by
  unfold cudaDeviceSynchronize
  apply Triple.discard
  · rintro w ⟨hm, ⟨ps, hq⟩⟩ -
    have hm1 := hm.logged .cudaDeviceSynchronize true (safe_record (by rfl) (by simp))
    refine ⟨hm1.same rfl (fun q => sync_capAt _ q) (Nat.le_refl _) rfl, ?_⟩
    intro _ hwf
    have ho := hm.held.owns
    exact landed_after_sync (w := record .cudaDeviceSynchronize true w) ps
      (by simpa [transfers] using hq) (ho.cap .rowPtr _ hR) (Nat.le_refl _)
      (ho.cap .colsInd _ hC) (ho.cap .values _ hV)
      (ho.apart .rowPtr .colsInd (by simp [hR]) (by simp [hC]) (by decide))
      (ho.apart .rowPtr .values (by simp [hR]) (by simp [hV]) (by decide))
      (ho.apart .colsInd .values (by simp [hC]) (by simp [hV]) (by decide)) hwf
  · rintro w ⟨hm, -⟩ hfail
    refine ⟨hm.logged _ _ (safe_record (by rfl) (by simp)), ?_⟩
    intro hall
    exact absurd hall (not_allOk hfail)

/-- Lines 146-150: the three transfers and the wait. -/
theorem sendData_spec (hr : M.rowBSize + 1 < 2 ^ 31)
    (hR : S .rowPtr = some (4 * (M.rowBSize + 1)))
    (hC : S .colsInd = some (4 * M.colsValue.length))
    (hV : S .values = some (8 * M.colsValue.length)) :
    Triple o (Mid S none n t M f) sendData
      (fun w => Mid S none n t M f w ∧ Synced o M w) (Ext n t) := by
  unfold sendData
  apply Triple.read; intro s
  apply Triple.seq (copy_rowPtr_spec hr hR s)
  apply Triple.read; intro s
  apply Triple.seq (copy_colsInd_spec hC s)
  apply Triple.read; intro s
  apply Triple.seq (copy_values_spec hV s)
  exact sync_spec hR hC hV

/-- Lines 119-150: staging.  From the shape `S` the call starts with (nothing
owned at the first call, a row pointer of `rows+1` ints at a later one), the
staged shape has the two `nnz`-sized buffers re-allocated for `M`. -/
theorem stage_spec (hr : M.rowBSize + 1 < 2 ^ 31) (hS : f = true → S = emptyShape)
    (hR : f = false → S .rowPtr = some (4 * (M.rowBSize + 1))) :
    Triple o
      (fun w => Held S none w ∧ Ext n t w ∧ w.solver.firstStep = f)
      (stage M)
      (fun w => Mid (stagedShape S M f) none n t M false w ∧ Synced o M w) (Ext n t) := by
  have h1 : stagedShape S M f .rowPtr = some (4 * (M.rowBSize + 1)) := by
    cases f
    · simpa [stagedShape] using hR rfl
    · simp [stagedShape, firstShape]
  unfold stage
  apply Triple.seq readMatrix_spec
  apply Triple.seq (firstStepAlloc_spec hr hS)
  apply Triple.seq reallocNnz_spec
  exact sendData_spec hr h1 (by simp [stagedShape]) (by simp [stagedShape])

end SendChain

section ContentLemmas
variable {o : Oracle} {S : Shape} {d : Option Slot} {M : HostMatrix} {w w1 : World}

theorem Landed.carry_landed (h : Landed M w) (hs : ∀ sl : Slot, sl.get w1.solver = sl.get w.solver)
    (hd : ∀ q, w1.dev.dataAt q = w.dev.dataAt q) : Landed M w1 := by
  obtain ⟨l1, l2, l3⟩ := h
  have e1 : w1.solver.device_RowPtr = w.solver.device_RowPtr := hs .rowPtr
  have e2 : w1.solver.device_ColsInd = w.solver.device_ColsInd := hs .colsInd
  have e3 : w1.solver.device_values = w.solver.device_values := hs .values
  exact ⟨by rw [e1, hd]; exact l1, by rw [e2, hd]; exact l2, by rw [e3, hd]; exact l3⟩

theorem Synced.carry_synced (h : Synced o M w) (hs : ∀ sl : Slot, sl.get w1.solver = sl.get w.solver)
    (hd : ∀ q, w1.dev.dataAt q = w.dev.dataAt q) : Synced o M w1 :=
  fun ho hwf => (h ho hwf).carry_landed hs hd

/-- Releasing the workspace leaves the three matrix buffers as they are. -/
theorem Synced.free_kept (h : Synced o M w) (hh : Held S none w) (hR : S .rowPtr ≠ none)
    (hC : S .colsInd ≠ none) (hV : S .values ≠ none) :
    Synced o M (w.free (Slot.get .buffer w.solver)) := by
  intro ho hwf
  obtain ⟨l1, l2, l3⟩ := h ho hwf
  have n1 : w.solver.device_RowPtr ≠ Slot.get .buffer w.solver :=
    hh.get_ne .rowPtr .buffer hR (by decide)
  have n2 : w.solver.device_ColsInd ≠ Slot.get .buffer w.solver :=
    hh.get_ne .colsInd .buffer hC (by decide)
  have n3 : w.solver.device_values ≠ Slot.get .buffer w.solver :=
    hh.get_ne .values .buffer hV (by decide)
  refine ⟨?_, ?_, ?_⟩
  · rw [free_solver, free_dataAt, if_neg n1]; exact l1
  · rw [free_solver, free_dataAt, if_neg n2]; exact l2
  · rw [free_solver, free_dataAt, if_neg n3]; exact l3

/-- Allocating the workspace leaves the three matrix buffers as they are. -/
theorem Synced.alloc_kept (h : Synced o M w) (hh : Held S d w) (hR : S .rowPtr ≠ none)
    (hC : S .colsInd ≠ none) (hV : S .values ≠ none) (bytes a : Nat) :
    Synced o M (w.alloc (Slot.set .buffer) bytes a) := by
  intro ho hwf
  obtain ⟨l1, l2, l3⟩ := h ho hwf
  obtain ⟨c1, hc1⟩ := some_of_ne_none hR
  obtain ⟨c2, hc2⟩ := some_of_ne_none hC
  obtain ⟨c3, hc3⟩ := some_of_ne_none hV
  have n1 : w.solver.device_RowPtr ≠ w.dev.pick a :=
    hh.base.ne_pick_of_capAt (hh.owns.cap .rowPtr c1 hc1) a
  have n2 : w.solver.device_ColsInd ≠ w.dev.pick a :=
    hh.base.ne_pick_of_capAt (hh.owns.cap .colsInd c2 hc2) a
  have n3 : w.solver.device_values ≠ w.dev.pick a :=
    hh.base.ne_pick_of_capAt (hh.owns.cap .values c3 hc3) a
  refine ⟨?_, ?_, ?_⟩
  · show ((w.alloc _ bytes a).dev.dataAt w.solver.device_RowPtr).take _ = _
    rw [alloc_dataAt, if_neg n1]; exact l1
  · show ((w.alloc _ bytes a).dev.dataAt w.solver.device_ColsInd).take _ = _
    rw [alloc_dataAt, if_neg n2]; exact l2
  · show ((w.alloc _ bytes a).dev.dataAt w.solver.device_values).take _ = _
    rw [alloc_dataAt, if_neg n3]; exact l3

end ContentLemmas

section MidCarry
variable {S : Shape} {d : Option Slot} {n : Nat} {t : List Event} {M : HostMatrix} {f : Bool}
  {w w1 : World}

/-- A transformation that leaves the device pointers, the members read from
`M`, `firstStep`, the capacities and the trace as they are keeps `Mid`. -/
theorem Mid.carry (h : Mid S d n t M f w) (hs : ∀ sl : Slot, sl.get w1.solver = sl.get w.solver)
    (hh : Hdr M w1) (hf : w1.solver.firstStep = w.solver.firstStep)
    (hc : ∀ q, w1.dev.capAt q = w.dev.capAt q) (hn : w.dev.next ≤ w1.dev.next)
    (ht : w1.dev.trace = w.dev.trace) : Mid S d n t M f w1 :=
  ⟨h.held.carry_held hs hc hn, h.ext.of_trace ht, hh, by rw [hf]; exact h.first⟩

end MidCarry

section FactChain
variable {o : Oracle} {S : Shape} {n : Nat} {t : List Event} {M : HostMatrix} {f : Bool}

/-- Statement `checksolver(cusolverSpCreateCsrcholInfo(&device_info))`. -/
theorem createInfo_spec :
    Triple o (fun w => Mid S none n t M f w ∧ Synced o M w)
      (checksolver (cusolverSpCreateCsrcholInfo fun p s => { s with device_info := p }))
      (fun w => Mid S none n t M f w ∧ Synced o M w) (Ext n t) := by
  unfold cusolverSpCreateCsrcholInfo
  apply Triple.checksolver
  · rintro w ⟨hm, hy⟩ -
    have hm1 := hm.logged .cusolverSpCreateCsrcholInfo true (safe_record (by rfl) (by simp))
    refine ⟨hm1.carry (fun sl => by cases sl <;> rfl)
      ⟨hm.hdr.rows, hm.hdr.cols, hm.hdr.nnz, hm.hdr.rowPtr, hm.hdr.colsInd, hm.hdr.values⟩
      rfl (fun _ => rfl) (Nat.le_succ _) rfl, ?_⟩
    exact hy.carry_synced (fun sl => by cases sl <;> rfl) (fun _ => rfl)
  · rintro w ⟨hm, -⟩ -
    exact (hm.ext.ext_logged _ false (safe_record (by rfl) (by simp))).scribbled _ _

/-- Statement `checksolver(cusolverSpXcsrcholAnalysis(...))`. -/
theorem analysis_spec (s : Solver) :
    Triple o (fun w => w.solver = s ∧ Mid S none n t M f w ∧ Synced o M w)
      (checksolver (cusolverSpXcsrcholAnalysis s.handle s.rowsA s.nnz s.descr
        s.device_RowPtr s.device_ColsInd s.device_info))
      (fun w => Mid S none n t M f w ∧ Synced o M w) (Ext n t) := by
  unfold cusolverSpXcsrcholAnalysis
  apply Triple.checksolver
  · rintro w ⟨rfl, hm, hy⟩ -
    have hm1 := hm.logged (.cusolverSpXcsrcholAnalysis w.solver.handle w.solver.rowsA
      w.solver.nnz w.solver.descr w.solver.device_RowPtr w.solver.device_ColsInd
      w.solver.device_info) true (safe_record (by rfl) (by simp))
    exact ⟨hm1.same rfl (fun _ => rfl) (Nat.le_refl _) rfl,
      hy.carry_synced (fun _ => rfl) (fun _ => rfl)⟩
  · rintro w ⟨rfl, hm, -⟩ -
    exact hm.ext.ext_logged _ false (safe_record (by rfl) (by simp))

/-- Statement `checksolver(cusolverSpDcsrcholBufferInfo(..., &size_internal, &size_work))`. -/
theorem bufferInfo_spec (s : Solver) :
    Triple o (fun w => w.solver = s ∧ Mid S none n t M f w ∧ Synced o M w)
      (checksolver (cusolverSpDcsrcholBufferInfo s.handle s.rowsA s.nnz s.descr
        s.device_values s.device_RowPtr s.device_ColsInd s.device_info
        fun si sw s => { s with size_internal := si, size_work := sw }))
      (fun w => Mid S none n t M f w ∧ Synced o M w) (Ext n t) := by
  unfold cusolverSpDcsrcholBufferInfo
  apply Triple.checksolver
  · rintro w ⟨rfl, hm, hy⟩ -
    have hm1 := hm.logged (.cusolverSpDcsrcholBufferInfo w.solver.handle w.solver.rowsA
      w.solver.nnz w.solver.descr w.solver.device_values w.solver.device_RowPtr
      w.solver.device_ColsInd w.solver.device_info) true (safe_record (by rfl) (by simp))
    refine ⟨hm1.carry (fun sl => by cases sl <;> rfl)
      ⟨hm.hdr.rows, hm.hdr.cols, hm.hdr.nnz, hm.hdr.rowPtr, hm.hdr.colsInd, hm.hdr.values⟩
      rfl (fun _ => rfl) (Nat.le_refl _) rfl, ?_⟩
    exact hy.carry_synced (fun sl => by cases sl <;> rfl) (fun _ => rfl)
  · rintro w ⟨rfl, hm, -⟩ -
    exact hm.ext.ext_logged _ false (safe_record (by rfl) (by simp))

/-- Statement `if(buffer_gpu) cudaFree(buffer_gpu);`. -/
theorem free_buffer_spec (hR : S .rowPtr ≠ none) (hC : S .colsInd ≠ none)
    (hV : S .values ≠ none) (s : Solver) :
    Triple o (fun w => w.solver = s ∧ Mid S none n t M f w ∧ Synced o M w)
      (if s.buffer_gpu ≠ 0 then discard (cudaFree s.buffer_gpu) else pure ())
      (fun w => Mid (Function.update S .buffer none) (some .buffer) n t M f w ∧ Synced o M w)
      (Ext n t) := by
  apply Triple.ite
  · intro _
    unfold cudaFree
    apply Triple.discard
    · rintro w ⟨rfl, hm, hy⟩ -
      have hm1 := hm.logged (.cudaFree w.solver.buffer_gpu) true
        (safe_record (by rfl) (by simp))
      have hy1 : Synced o M (record (.cudaFree w.solver.buffer_gpu) true w) :=
        hy.carry_synced (fun _ => rfl) (fun _ => rfl)
      exact ⟨hm1.free .buffer, hy1.free_kept hm1.held hR hC hV⟩
    · rintro w ⟨rfl, hm, hy⟩ -
      exact ⟨(hm.logged _ false (safe_record (by rfl) (by simp))).drop .buffer,
        hy.carry_synced (fun _ => rfl) (fun _ => rfl)⟩
  · intro _
    apply Triple.pure
    rintro w ⟨-, hm, hy⟩
    exact ⟨hm.drop .buffer, hy⟩

/-- Statement `checkCudaErrors(cudaMalloc(&buffer_gpu, sizeof(char)*size_work))`. -/
theorem malloc_buffer_spec (hR : S .rowPtr ≠ none) (hC : S .colsInd ≠ none)
    (hV : S .values ≠ none) (s : Solver) :
    Triple o
      (fun w => w.solver = s ∧
        Mid (Function.update S .buffer none) (some .buffer) n t M f w ∧ Synced o M w)
      (checkCudaErrors (cudaMalloc (fun p s => { s with buffer_gpu := p }) (1 * s.size_work)))
      (fun w => (∃ c, Mid (Function.update S .buffer (some c)) none n t M f w) ∧ Synced o M w)
      (Ext n t) := by
  unfold cudaMalloc
  apply Triple.checkCudaErrors
  · rintro w ⟨rfl, hm, hy⟩ -
    have hm1 := hm.logged (.cudaMalloc (1 * w.solver.size_work)) true
      (safe_record (by rfl) (by simp))
    have hm2 := hm1.alloc .buffer (fun _ h => (Option.some.inj h).symm)
      (1 * w.solver.size_work) (o w.dev.trace.length).addr
    rw [Function.update_idem] at hm2
    refine ⟨⟨_, hm2⟩, ?_⟩
    have hy1 : Synced o M (record (.cudaMalloc (1 * w.solver.size_work)) true w) :=
      hy.carry_synced (fun _ => rfl) (fun _ => rfl)
    exact hy1.alloc_kept hm1.held (by simpa using hR) (by simpa using hC)
      (by simpa using hV) _ _
  · rintro w ⟨rfl, hm, -⟩ -
    exact (hm.ext.ext_logged _ false (safe_record (by rfl) (by simp))).scribbled _ _

/-- Statement `checksolver(cusolverSpDcsrcholFactor(...))`. -/
theorem factor_spec (s : Solver) :
    Triple o
      (fun w => w.solver = s ∧
        (∃ c, Mid (Function.update S .buffer (some c)) none n t M f w) ∧ Synced o M w)
      (checksolver (cusolverSpDcsrcholFactor s.handle s.rowsA s.nnz s.descr
        s.device_values s.device_RowPtr s.device_ColsInd s.device_info s.buffer_gpu))
      (fun w => (∃ c, Mid (Function.update S .buffer (some c)) none n t M f w) ∧ Synced o M w)
      (Ext n t) := by
  unfold cusolverSpDcsrcholFactor
  apply Triple.checksolver
  · rintro w ⟨rfl, ⟨c, hm⟩, hy⟩ -
    have hm1 := hm.logged (.cusolverSpDcsrcholFactor w.solver.handle w.solver.rowsA
      w.solver.nnz w.solver.descr w.solver.device_values w.solver.device_RowPtr
      w.solver.device_ColsInd w.solver.device_info w.solver.buffer_gpu) true
      (safe_record (by rfl) (by simp))
    exact ⟨⟨c, hm1.same rfl (fun _ => rfl) (Nat.le_refl _) rfl⟩,
      hy.carry_synced (fun _ => rfl) (fun _ => rfl)⟩
  · rintro w ⟨rfl, ⟨c, hm⟩, -⟩ -
    exact hm.ext.ext_logged _ false (safe_record (by rfl) (by simp))

/-- Lines 153-168: factorization. -/
theorem factorize_spec (hR : S .rowPtr ≠ none) (hC : S .colsInd ≠ none)
    (hV : S .values ≠ none) :
    Triple o (fun w => Mid S none n t M f w ∧ Synced o M w) factorize
      (fun w => (∃ c, Mid (Function.update S .buffer (some c)) none n t M f w) ∧ Synced o M w)
      (Ext n t) := by
  unfold factorize
  apply Triple.seq createInfo_spec
  apply Triple.read; intro s
  apply Triple.seq (analysis_spec s)
  apply Triple.read; intro s
  apply Triple.seq (bufferInfo_spec s)
  apply Triple.read; intro s
  apply Triple.seq (free_buffer_spec hR hC hV s)
  apply Triple.read; intro s
  apply Triple.seq (malloc_buffer_spec hR hC hV s)
  apply Triple.read; intro s
  exact factor_spec s

/-- Outcome of `invert M`: run to its end, it leaves the staged shape with a
new workspace, the members read from `M`, and, when every call succeeded, the
arrays of `M` on the device; aborted, every event it issued was safe. -/
theorem invert_spec (hr : M.rowBSize + 1 < 2 ^ 31) (hS : f = true → S = emptyShape)
    (hR : f = false → S .rowPtr = some (4 * (M.rowBSize + 1))) :
    Triple o
      (fun w => Held S none w ∧ Ext n t w ∧ w.solver.firstStep = f)
      (invert M)
      (fun w => (∃ c, Mid (Function.update (stagedShape S M f) .buffer (some c))
        none n t M false w) ∧ Synced o M w)
      (Ext n t) := by
  have h1 : stagedShape S M f .rowPtr ≠ none := by
    cases f
    · simp [stagedShape, hR rfl]
    · simp [stagedShape, firstShape]
  unfold invert
  apply Triple.seq (stage_spec hr hS hR)
  exact factorize_spec h1 (by simp [stagedShape]) (by simp [stagedShape])

end FactChain

section SolveChain
variable {o : Oracle} {G : Prop} {S : Shape} {n v : Nat} {z : Solver} {t : List Event}

theorem SolveMid.step {w w1 : World} (h : SolveMid G S n z t w) (call : Call) (ok : Bool)
    (hsafe : G → Event.safe n ⟨call, ok, w.dev.accessOk call⟩)
    (hs : w1.solver = w.solver) (hn : w.dev.next ≤ w1.dev.next)
    (hc : ∀ q, w1.dev.capAt q = w.dev.capAt q)
    (ht : w1.dev.trace = (record call ok w).dev.trace) : SolveMid G S n z t w1 := by
  obtain ⟨hh, hz, hg⟩ := h
  exact ⟨hh.carry_held (fun _ => by rw [hs]) hc hn, by rw [hs]; exact hz,
    fun g => ((hg g).ext_logged call ok (hsafe g)).of_trace ht⟩

theorem SolveMid.rangeOk_b {w : World} (h : SolveMid G S n z t w) (hb : S .b = some v)
    (hfit : 8 * z.colsA ≤ v) :
    rangeOk w.dev.mem w.solver.device_b (8 * w.solver.colsA) = true :=
  rangeOk_of_capAt (h.1.owns.cap .b v hb) (by rw [h.2.1]; exact hfit)

theorem SolveMid.rangeOk_x {w : World} (h : SolveMid G S n z t w) (hx : S .x = some v)
    (hfit : 8 * z.colsA ≤ v) :
    rangeOk w.dev.mem w.solver.device_x (8 * w.solver.colsA) = true :=
  rangeOk_of_capAt (h.1.owns.cap .x v hx) (by rw [h.2.1]; exact hfit)

/-- Statement `checkCudaErrors(cudaMemcpyAsync(device_b, b.ptr(), sizeof(double)*colsA, ...))`. -/
theorem copy_b_spec (hb : S .b = some v) (hG : G → 8 * z.colsA ≤ v) (b : List Int)
    (s : Solver) :
    Triple o (fun w => w.solver = s ∧ SolveMid G S n z t w)
      (checkCudaErrors (cudaMemcpyAsyncHostToDevice s.device_b b 8 s.colsA))
      (SolveMid G S n z t) (SolveMid G S n z t) := by
  unfold cudaMemcpyAsyncHostToDevice
  apply Triple.checkCudaErrors
  · rintro w ⟨rfl, h⟩ -
    exact h.step _ true (fun g => safe_record (by exact h.rangeOk_b hb (hG g)) (by simp)) rfl
      (Nat.le_refl _) (fun _ => rfl) rfl
  · rintro w ⟨rfl, h⟩ -
    exact h.step _ false (fun g => safe_record (by exact h.rangeOk_b hb (hG g)) (by simp)) rfl
      (Nat.le_refl _) (fun _ => rfl) rfl

/-- Statement `checkCudaErrors(cudaMemcpyAsync(device_x, x.ptr(), sizeof(double)*colsA, ...))`. -/
theorem copy_x_spec (hx : S .x = some v) (hG : G → 8 * z.colsA ≤ v) (x : List Int)
    (s : Solver) :
    Triple o (fun w => w.solver = s ∧ SolveMid G S n z t w)
      (checkCudaErrors (cudaMemcpyAsyncHostToDevice s.device_x x 8 s.colsA))
      (SolveMid G S n z t) (SolveMid G S n z t) := by
  unfold cudaMemcpyAsyncHostToDevice
  apply Triple.checkCudaErrors
  · rintro w ⟨rfl, h⟩ -
    exact h.step _ true (fun g => safe_record (by exact h.rangeOk_x hx (hG g)) (by simp)) rfl
      (Nat.le_refl _) (fun _ => rfl) rfl
  · rintro w ⟨rfl, h⟩ -
    exact h.step _ false (fun g => safe_record (by exact h.rangeOk_x hx (hG g)) (by simp)) rfl
      (Nat.le_refl _) (fun _ => rfl) rfl

/-- Statement `cudaDeviceSynchronize();` of line 103. -/
theorem solve_sync_spec :
    Triple o (SolveMid G S n z t) (discard cudaDeviceSynchronize)
      (SolveMid G S n z t) (SolveMid G S n z t) := by
  unfold cudaDeviceSynchronize
  apply Triple.discard
  · rintro w h -
    exact h.step _ true (fun _ => safe_record (by rfl) (by simp)) rfl (Nat.le_refl _)
      (fun q => sync_capAt _ q) rfl
  · rintro w h -
    exact h.step _ false (fun _ => safe_record (by rfl) (by simp)) rfl (Nat.le_refl _)
      (fun _ => rfl) rfl

/-- Statement `checkCudaErrors(cudaDeviceSynchronize());` of line 110. -/
theorem solve_sync_checked_spec :
    Triple o (SolveMid G S n z t) (checkCudaErrors cudaDeviceSynchronize)
      (SolveMid G S n z t) (SolveMid G S n z t) := by
  unfold cudaDeviceSynchronize
  apply Triple.checkCudaErrors
  · rintro w h -
    exact h.step _ true (fun _ => safe_record (by rfl) (by simp)) rfl (Nat.le_refl _)
      (fun q => sync_capAt _ q) rfl
  · rintro w h -
    exact h.step _ false (fun _ => safe_record (by rfl) (by simp)) rfl (Nat.le_refl _)
      (fun _ => rfl) rfl

theorem SolveMid.safe_solve {w : World} (h : SolveMid G S n z t w) (hx : S .x = some v)
    (hb : S .b = some v) (hfit : 8 * z.rowsA ≤ v) (hn : z.rowsA = n) (ok : Bool) :
    Event.safe n ⟨.cusolverSpDcsrcholSolve w.solver.handle w.solver.rowsA w.solver.device_b
      w.solver.device_x w.solver.device_info w.solver.buffer_gpu, ok,
      w.dev.accessOk (.cusolverSpDcsrcholSolve w.solver.handle w.solver.rowsA w.solver.device_b
        w.solver.device_x w.solver.device_info w.solver.buffer_gpu)⟩ := by
  refine safe_record ?_ ?_
  · show (rangeOk w.dev.mem w.solver.device_b (8 * w.solver.rowsA) &&
      rangeOk w.dev.mem w.solver.device_x (8 * w.solver.rowsA)) = true
    have hfit1 : 8 * w.solver.rowsA ≤ v := by rw [h.2.1]; exact hfit
    have e1 : rangeOk w.dev.mem w.solver.device_b (8 * w.solver.rowsA) = true :=
      rangeOk_of_capAt (h.1.owns.cap .b v hb) hfit1
    have e2 : rangeOk w.dev.mem w.solver.device_x (8 * w.solver.rowsA) = true :=
      rangeOk_of_capAt (h.1.owns.cap .x v hx) hfit1
    rw [e1, e2]
    rfl
  · intro h1 rows b1 x1 i1 buf1 he
    injection he with _ hrows
    rw [← hrows, h.2.1]; exact hn

/-- Statement `checksolver(cusolverSpDcsrcholSolve(handle, rowsA, device_b, device_x, ...))`. -/
theorem triangular_spec (hx : S .x = some v) (hb : S .b = some v)
    (hG : G → 8 * z.rowsA ≤ v ∧ z.rowsA = n) (s : Solver) :
    Triple o (fun w => w.solver = s ∧ SolveMid G S n z t w)
      (checksolver (cusolverSpDcsrcholSolve s.handle s.rowsA s.device_b s.device_x
        s.device_info s.buffer_gpu))
      (SolveMid G S n z t) (SolveMid G S n z t) := by
  unfold cusolverSpDcsrcholSolve
  apply Triple.checksolver
  · rintro w ⟨rfl, h⟩ -
    exact h.step _ true (fun g => h.safe_solve hx hb (hG g).1 (hG g).2 true) rfl
      (Nat.le_refl _) (fun q => solved_capAt _ _ _ _ q) rfl
  · rintro w ⟨rfl, h⟩ -
    exact h.step _ false (fun g => h.safe_solve hx hb (hG g).1 (hG g).2 false) rfl
      (Nat.le_refl _) (fun _ => rfl) rfl

/-- Statement `checkCudaErrors(cudaMemcpyAsync(x.ptr(), device_x, sizeof(double)*colsA, ...))`. -/
theorem copy_back_spec (hx : S .x = some v) (hG : G → 8 * z.colsA ≤ v) (s : Solver) :
    Triple o (fun w => w.solver = s ∧ SolveMid G S n z t w)
      (checkCudaErrors (cudaMemcpyAsyncDeviceToHost s.device_x 8 s.colsA))
      (SolveMid G S n z t) (SolveMid G S n z t) := by
  unfold cudaMemcpyAsyncDeviceToHost
  apply Triple.checkCudaErrors
  · rintro w ⟨rfl, h⟩ -
    exact h.step _ true (fun g => safe_record (by exact h.rangeOk_x hx (hG g)) (by simp)) rfl
      (Nat.le_refl _) (fun _ => rfl) rfl
  · rintro w ⟨rfl, h⟩ -
    exact h.step _ false (fun g => safe_record (by exact h.rangeOk_x hx (hG g)) (by simp)) rfl
      (Nat.le_refl _) (fun _ => rfl) rfl

/-- Outcome of `solve(x, b)`, run to its end or aborted: the memory discipline
and the members are kept, and under the proviso every event issued was safe. -/
theorem solve_spec (hx : S .x = some v) (hb : S .b = some v)
    (hG : G → 8 * z.colsA ≤ v ∧ 8 * z.rowsA ≤ v ∧ z.rowsA = n) (x b : List Int) :
    Triple o (SolveMid G S n z t) (solve x b) (SolveMid G S n z t) (SolveMid G S n z t) := by
  unfold solve
  apply Triple.read; intro s
  apply Triple.seq (copy_b_spec hb (fun g => (hG g).1) b s)
  apply Triple.read; intro s
  apply Triple.seq (copy_x_spec hx (fun g => (hG g).1) x s)
  apply Triple.seq solve_sync_spec
  apply Triple.read; intro s
  apply Triple.seq (triangular_spec hx hb (fun g => (hG g).2) s)
  apply Triple.seq solve_sync_checked_spec
  apply Triple.read; intro s
  exact copy_back_spec hx (fun g => (hG g).1) s

end SolveChain

theorem Triple.run {α : Type} {o : Oracle} {P Q E : World → Prop} {x : Op α}
    (h : Triple o P x Q E) {w : World} (hw : P w) :
    ((x o w).1 ≠ none → Q (x o w).2) ∧ ((x o w).1 = none → E (x o w).2) := by
  have h1 := h w hw
  rcases hx : x o w with ⟨_ | a, w1⟩
  · rw [hx] at h1; simpa using h1
  · rw [hx] at h1; simpa using h1

theorem Triple.run_any {α : Type} {o : Oracle} {P Q : World → Prop} {x : Op α}
    (h : Triple o P x Q Q) {w : World} (hw : P w) : Q (x o w).2 := by
  have h1 := h w hw
  rcases hx : x o w with ⟨_ | a, w1⟩
  · rw [hx] at h1; exact h1
  · rw [hx] at h1; exact h1

theorem Triple.run_total {α : Type} {o : Oracle} {P Q : World → Prop} {x : Op α}
    (h : Triple o P x Q (fun _ => False)) {w : World} (hw : P w) :
    (x o w).1 ≠ none ∧ Q (x o w).2 := by
  have h1 := h w hw
  rcases hx : x o w with ⟨_ | a, w1⟩
  · rw [hx] at h1; exact h1.elim
  · rw [hx] at h1; exact ⟨by simp, h1⟩

section ConstructChain
variable {o : Oracle} {n : Nat} {t : List Event} {E : World → Prop}

theorem createHandle_spec (c : Call) (out : Nat → Solver → Solver)
    (hc : ∀ h rows b x i buf, c ≠ .cusolverSpDcsrcholSolve h rows b x i buf)
    (ha : ∀ d : Device, d.accessOk c = true) :
    Triple o (Pristine n t) (discard (createHandle c out)) (Pristine n t) E := by
  unfold createHandle
  apply Triple.discard
  · rintro w ⟨h1, h2, h3⟩ -
    refine ⟨fun q => h1 q, ?_, (h3.ext_logged c true
      (safe_record (ha _) (fun h rows b x i buf he => absurd he (hc h rows b x i buf)))).of_trace rfl⟩
    show 1 ≤ w.dev.next + 1
    omega
  · rintro w ⟨h1, h2, h3⟩ -
    refine ⟨fun q => ?_, ?_, (h3.ext_logged c false
      (safe_record (ha _) (fun h rows b x i buf he =>
        absurd he (hc h rows b x i buf)))).scribbled _ _⟩
    · rw [scribbled_dev]; exact h1 q
    · rw [scribbled_dev]; exact h2

theorem configure_spec (c : Call)
    (hc : ∀ h rows b x i buf, c ≠ .cusolverSpDcsrcholSolve h rows b x i buf)
    (ha : ∀ d : Device, d.accessOk c = true) :
    Triple o (fun w => Pristine n t w) (discard (configure c)) (Pristine n t) E := by
  unfold configure
  apply Triple.discard
  · rintro w ⟨h1, h2, h3⟩ -
    exact ⟨fun q => h1 q, h2, h3.ext_logged c true
      (safe_record (ha _) (fun h rows b x i buf he => absurd he (hc h rows b x i buf)))⟩
  · rintro w ⟨h1, h2, h3⟩ -
    exact ⟨fun q => h1 q, h2, h3.ext_logged c false
      (safe_record (ha _) (fun h rows b x i buf he => absurd he (hc h rows b x i buf)))⟩

/-- Outcome of the constructor: nothing is owned, every device pointer is null,
the solver is in its first step, and construction never aborts. -/
theorem construct_spec :
    Triple o (Pristine n t) construct
      (fun w => Held emptyShape none w ∧ w.solver.firstStep = true ∧ Ext n t w)
      (fun _ => False) := by
  unfold construct
  apply Triple.seq (createHandle_spec _ _ (by simp) (fun _ => by rfl))
  apply Triple.seq (createHandle_spec _ _ (by simp) (fun _ => by rfl))
  apply Triple.seq (createHandle_spec _ _ (by simp) (fun _ => by rfl))
  apply Triple.read; intro s
  apply Triple.seq (R := Pristine n t)
  · exact (configure_spec _ (by simp) (fun _ => by rfl)).conseq (fun w h => h.2) (fun w h => h)
  apply Triple.read; intro s
  apply Triple.seq (R := Pristine n t)
  · exact (configure_spec _ (by simp) (fun _ => by rfl)).conseq (fun w h => h.2) (fun w h => h)
  apply Triple.seq (createHandle_spec _ _ (by simp) (fun _ => by rfl))
  apply Triple.read; intro s
  apply Triple.seq (R := Pristine n t)
  · exact (configure_spec _ (by simp) (fun _ => by rfl)).conseq (fun w h => h.2) (fun w h => h)
  apply Triple.read; intro s
  apply Triple.seq (R := Pristine n t)
  · exact (configure_spec _ (by simp) (fun _ => by rfl)).conseq (fun w h => h.2) (fun w h => h)
  apply Triple.setSolver
  rintro w ⟨h1, h2, h3⟩
  refine ⟨⟨⟨fun p _ => h1 p, h1 0, h2⟩, ⟨?_, ?_⟩, ?_⟩, rfl, h3.of_trace rfl⟩
  · intro sl c hc
    simp [emptyShape] at hc
  · intro sl sl1 hs
    simp [emptyShape] at hs
  · intro sl _ _
    cases sl <;> rfl

end ConstructChain

theorem pristine_fresh (n : Nat) (raw : Solver) :
    Pristine n [] { solver := raw, dev := Device.fresh } :=
  ⟨fun _ => rfl, Nat.le_refl 1, ⟨[], rfl, by simp⟩⟩

theorem staged_first_eq (M : HostMatrix) (c : Nat) :
    Function.update (stagedShape emptyShape M true) .buffer (some c)
      = fullShape M.rowBSize (8 * M.colBSize) (8 * M.colBSize) (4 * M.colsValue.length)
          (8 * M.colsValue.length) c := by
  funext sl
  cases sl <;> rfl

theorem staged_later_eq (M : HostMatrix) (r v cp cc cv cb c : Nat) :
    Function.update (stagedShape (fullShape r v cp cc cv cb) M false) .buffer (some c)
      = fullShape r v cp (4 * M.colsValue.length) (8 * M.colsValue.length) c := by
  funext sl
  cases sl <;> rfl

/-- An `invert M` that ran to its end from a state satisfying the invariant
leaves the full shape with the two `nnz`-sized buffers allocated for `M`, every
event it issued was safe, and the device holds `M` when every call succeeded. -/
theorem invert_done {o : Oracle} {r v n : Nat} {M : HostMatrix} {w : World}
    (hr : r + 1 < 2 ^ 31) (hM : M.rowBSize = r) (hi : Inv r v w)
    (hv : w.solver.firstStep = true → v = 8 * M.colBSize)
    (hrun : (invert M o w).1 = some ()) :
    (∃ cp cb, Mid (fullShape r v cp (4 * M.colsValue.length) (8 * M.colsValue.length) cb)
      none n w.dev.trace M false (invert M o w).2) ∧ Synced o M (invert M o w).2 := by
  subst hM
  have hne : (invert M o w).1 ≠ none := by rw [hrun]; simp
  cases hf : w.solver.firstStep
  · obtain ⟨cp, cc, cv, cb, hh⟩ := hi.2 hf
    have h := ((invert_spec (o := o) (n := n) (t := w.dev.trace) (f := false) hr
      (fun h => absurd h (by simp)) (fun _ => rfl)).run (w := w)
      ⟨hh, Ext.refl n w, hf⟩).1 hne
    obtain ⟨⟨c, hm⟩, hy⟩ := h
    rw [staged_later_eq] at hm
    exact ⟨⟨cp, c, hm⟩, hy⟩
  · have hh := hi.1 hf
    have h := ((invert_spec (o := o) (n := n) (t := w.dev.trace) (f := true) hr
      (fun _ => rfl) (fun h => absurd h (by simp))).run (w := w)
      ⟨hh, Ext.refl n w, hf⟩).1 hne
    obtain ⟨⟨c, hm⟩, hy⟩ := h
    rw [staged_first_eq, ← hv hf] at hm
    exact ⟨⟨_, c, hm⟩, hy⟩

/-- Every event issued by `invert M` from a state satisfying the invariant was
safe, however the call ended. -/
theorem invert_ext {o : Oracle} {r v n : Nat} {M : HostMatrix} {w : World}
    (hr : r + 1 < 2 ^ 31) (hM : M.rowBSize = r) (hi : Inv r v w) :
    Ext n w.dev.trace (invert M o w).2 := by
  subst hM
  cases hf : w.solver.firstStep
  · obtain ⟨cp, cc, cv, cb, hh⟩ := hi.2 hf
    have h := ((invert_spec (o := o) (n := n) (t := w.dev.trace) (f := false) hr
      (fun h => absurd h (by simp)) (fun _ => rfl)).conseq (fun w1 h1 => h1)
      (fun w1 h1 => (Exists.choose_spec h1.1).ext)).run_any (w := w) ⟨hh, Ext.refl n w, hf⟩
    exact h
  · have hh := hi.1 hf
    have h := ((invert_spec (o := o) (n := n) (t := w.dev.trace) (f := true) hr
      (fun _ => rfl) (fun h => absurd h (by simp))).conseq (fun w1 h1 => h1)
      (fun w1 h1 => (Exists.choose_spec h1.1).ext)).run_any (w := w) ⟨hh, Ext.refl n w, hf⟩
    exact h

theorem Mid.inv {r v cp cc cv cb n : Nat} {t : List Event} {M : HostMatrix}
    {w : World} (h : Mid (fullShape r v cp cc cv cb) none n t M false w) : Inv r v w :=
  ⟨fun hf => absurd hf (by rw [h.first]; simp), fun _ => ⟨cp, cc, cv, cb, h.held⟩⟩

/-- Statement `solve x b`, run to its end or aborted, keeps the invariant and
the members. -/
theorem solve_inv {o : Oracle} {r v : Nat} {x b : List Int} {w : World} (hi : Inv r v w)
    (hf : w.solver.firstStep = false) :
    Inv r v (solve x b o w).2 ∧ (solve x b o w).2.solver = w.solver := by
  obtain ⟨cp, cc, cv, cb, hh⟩ := hi.2 hf
  have h := (solve_spec (o := o) (G := False) (n := 0) (v := v) (z := w.solver)
    (t := w.dev.trace) (S := fullShape r v cp cc cv cb) rfl rfl (fun g => g.elim) x b).run_any
    (w := w) ⟨hh, rfl, fun g => g.elim⟩
  refine ⟨⟨fun h1 => ?_, fun _ => ⟨cp, cc, cv, cb, h.1⟩⟩, h.2.1⟩
  rw [h.2.1, hf] at h1
  exact absurd h1 (by simp)

/-- In every reachable state the invariant holds, for the row count `r` shared
by the matrices and for some capacity `v` of the vector buffers. -/
theorem reach_inv {r : Nat} (hr : r + 1 < 2 ^ 31) {w : World}
    (hw : Reach (fun M => M.rowBSize = r) w) : ∃ v, Inv r v w := by
  induction hw with
  | construct raw o =>
    have h := (construct_spec (o := o) (n := 0) (t := [])).run_total (pristine_fresh 0 raw)
    exact ⟨0, fun _ => h.2.1, fun hf => absurd hf (by rw [h.2.2.1]; simp)⟩
  | @invert w o M _ hM hrun ih =>
    obtain ⟨v, hi⟩ := ih
    cases hf : w.solver.firstStep
    · obtain ⟨⟨cp, cb, hm⟩, -⟩ := invert_done (o := o) (n := 0) hr hM hi
        (fun h => absurd h (by rw [hf]; simp)) hrun
      exact ⟨v, hm.inv⟩
    · have hi1 : Inv r (8 * M.colBSize) w :=
        ⟨hi.1, fun h => absurd h (by rw [hf]; simp)⟩
      obtain ⟨⟨cp, cb, hm⟩, -⟩ := invert_done (o := o) (n := 0) hr hM hi1 (fun _ => rfl) hrun
      exact ⟨_, hm.inv⟩
  | @solve w o x b _ hf ih =>
    obtain ⟨v, hi⟩ := ih
    exact ⟨v, (solve_inv hi hf).1⟩

/-- In every state reachable with square matrices of size `n`: the invariant
holds with vector buffers of `8*n` bytes, `rowsA` and `colsA` are `n` once an
`invert` has run to its end, and every event of the trace is safe. -/
theorem reach_square {n : Nat} (hn : n + 1 < 2 ^ 31) {w : World}
    (hw : Reach (fun M => M.rowBSize = n ∧ M.colBSize = n) w) :
    Inv n (8 * n) w ∧
      (w.solver.firstStep = false → w.solver.rowsA = n ∧ w.solver.colsA = n) ∧
      ∀ e ∈ w.dev.trace, e.safe n := by
  induction hw with
  | construct raw o =>
    have h := (construct_spec (o := o) (n := n) (t := [])).run_total (pristine_fresh n raw)
    exact ⟨⟨fun _ => h.2.1, fun hf => absurd hf (by rw [h.2.2.1]; simp)⟩,
      fun hf => absurd hf (by rw [h.2.2.1]; simp), h.2.2.2.all_safe (by simp)⟩
  | @invert w o M _ hM hrun ih =>
    obtain ⟨hi, hc, ht⟩ := ih
    obtain ⟨⟨cp, cb, hm⟩, -⟩ := invert_done (o := o) (n := n) hn hM.1 hi
      (fun _ => by rw [hM.2]) hrun
    exact ⟨hm.inv, fun _ => ⟨by rw [hm.hdr.rows, hM.1], by rw [hm.hdr.cols, hM.2]⟩,
      hm.ext.all_safe ht⟩
  | @solve w o x b _ hf ih =>
    obtain ⟨hi, hc, ht⟩ := ih
    obtain ⟨cp, cc, cv, cb, hh⟩ := hi.2 hf
    have h := (solve_spec (o := o) (G := True) (n := n) (v := 8 * n) (z := w.solver)
      (t := w.dev.trace) (S := fullShape n (8 * n) cp cc cv cb) rfl rfl
      (fun _ => by rw [(hc hf).1, (hc hf).2]; exact ⟨Nat.le_refl _, Nat.le_refl _, rfl⟩)
      x b).run_any (w := w) ⟨hh, rfl, fun _ => Ext.refl n w⟩
    have hs := (solve_inv (o := o) (x := x) (b := b) hi hf)
    refine ⟨hs.1, fun _ => ?_, (h.2.2 trivial).all_safe ht⟩
    rw [hs.2]
    exact hc hf

section Explicit
variable {o : Oracle}

theorem pure_run {α : Type} (a : α) (o : Oracle) (w : World) :
    (pure a : Op α) o w = (some a, w) := rfl

theorem getSolver_run (o : Oracle) (w : World) : getSolver o w = (some w.solver, w) := rfl

theorem setSolver_run (f : Solver → Solver) (o : Oracle) (w : World) :
    setSolver f o w = (some (), { w with solver := f w.solver }) := rfl

theorem ite_run {α : Type} (c : Prop) [Decidable c] (x y : Op α) (o : Oracle) (w : World) :
    (if c then x else y) o w = if c then x o w else y o w := by
  split <;> rfl

theorem checkCudaErrors_ok (ho : AllOk o) (c : Call) (eff fl : Reply → World → World)
    (w : World) :
    checkCudaErrors (issue c eff fl) o w
      = (some (), eff (o w.dev.trace.length) (record c true w)) := by
  simp [checkCudaErrors, issue, ho _]

theorem checksolver_ok (ho : AllOk o) (c : Call) (eff fl : Reply → World → World)
    (w : World) :
    checksolver (issue c eff fl) o w
      = (some (), eff (o w.dev.trace.length) (record c true w)) := by
  simp [checksolver, issue, ho _]

theorem discard_ok (ho : AllOk o) (c : Call) (eff fl : Reply → World → World) (w : World) :
    discard (issue c eff fl) o w
      = (some (), eff (o w.dev.trace.length) (record c true w)) := by
  simp [discard, issue, ho _]

/-- With every call succeeding, the factorization part issues its calls in the
order create, analyse, size query, (free), allocate, factorize, and leaves a
workspace of the queried size. -/
theorem factorize_ok (ho : AllOk o) (w : World) :
    (factorize o w).1 = some () ∧
      (factorize o w).2.dev.trace.map Event.call = w.dev.trace.map Event.call ++
        [.cusolverSpCreateCsrcholInfo,
         .cusolverSpXcsrcholAnalysis w.solver.handle w.solver.rowsA w.solver.nnz w.solver.descr
            w.solver.device_RowPtr w.solver.device_ColsInd w.dev.next,
         .cusolverSpDcsrcholBufferInfo w.solver.handle w.solver.rowsA w.solver.nnz
            w.solver.descr w.solver.device_values w.solver.device_RowPtr
            w.solver.device_ColsInd w.dev.next] ++
        (if w.solver.buffer_gpu ≠ 0 then [.cudaFree w.solver.buffer_gpu] else []) ++
        [.cudaMalloc (1 * (o (w.dev.trace.length + 2)).sizeWork),
         .cusolverSpDcsrcholFactor w.solver.handle w.solver.rowsA w.solver.nnz w.solver.descr
            w.solver.device_values w.solver.device_RowPtr w.solver.device_ColsInd
            w.dev.next (factorize o w).2.solver.buffer_gpu] ∧
      (factorize o w).2.solver.device_info = w.dev.next ∧
      (factorize o w).2.solver.size_work = (o (w.dev.trace.length + 2)).sizeWork ∧
      (factorize o w).2.dev.capAt (factorize o w).2.solver.buffer_gpu
        = some (o (w.dev.trace.length + 2)).sizeWork := by
  have hrun : factorize o w = factorize o w := rfl
  conv at hrun =>
    rhs
    simp only [factorize, bind_run, getSolver_run, ite_run, pure_run, cusolverSpCreateCsrcholInfo,
        cusolverSpXcsrcholAnalysis, cusolverSpDcsrcholBufferInfo, cusolverSpDcsrcholFactor,
        cudaMalloc, cudaFree, checkCudaErrors_ok ho, checksolver_ok ho, discard_ok ho]
  rw [hrun]
  by_cases hb : w.solver.buffer_gpu = 0
  · simp [hb, alloc_capAt]
  · simp [hb, alloc_capAt]

/-- With every call succeeding, staging runs to its end, its last call is the
completed wait, and no transfer is left in the queue. -/
theorem stage_ok (ho : AllOk o) (M : HostMatrix) (w : World) :
    (stage M o w).1 = some () ∧ (stage M o w).2.dev.pending = [] ∧
      (stage M o w).2.dev.trace.getLast? = some ⟨.cudaDeviceSynchronize, true, true⟩ := by
  have hrun : stage M o w = stage M o w := rfl
  conv at hrun =>
    rhs
    simp only [stage, readMatrix, firstStepAlloc, firstStepBody, reallocNnz, sendData, bind_run,
      getSolver_run, setSolver_run, ite_run, pure_run, cudaMalloc, cudaFree,
      cudaMemcpyAsyncHostToDevice, cudaDeviceSynchronize, checkCudaErrors_ok ho, discard_ok ho]
  rw [hrun]
  by_cases hf : w.solver.firstStep = true <;> by_cases h1 : w.solver.device_ColsInd = 0 <;>
    by_cases h2 : w.solver.device_values = 0 <;> simp [hf, h1, h2, Device.accessOk]

/-- With every call succeeding, a later `invert` (first step passed, both
`nnz`-sized buffers allocated) stages by freeing and re-allocating both buffers
before it copies; the two pointers are then the addresses the allocator
returned. -/
theorem stage_ok_later (ho : AllOk o) (M : HostMatrix) (w : World)
    (hf : w.solver.firstStep = false) (h1 : w.solver.device_ColsInd ≠ 0)
    (h2 : w.solver.device_values ≠ 0) :
    (stage M o w).2.dev.trace.map Event.call = w.dev.trace.map Event.call ++
      [.cudaFree w.solver.device_ColsInd,
       .cudaMalloc (4 * M.colsValue.length),
       .cudaFree w.solver.device_values,
       .cudaMalloc (8 * M.colsValue.length),
       .cudaMemcpyAsyncHostToDevice w.solver.device_RowPtr M.rowBegin 4 (intSucc M.rowBSize),
       .cudaMemcpyAsyncHostToDevice (stage M o w).2.solver.device_ColsInd M.colsIndex 4
          M.colsValue.length,
       .cudaMemcpyAsyncHostToDevice (stage M o w).2.solver.device_values M.colsValue 8
          M.colsValue.length,
       .cudaDeviceSynchronize] ∧
      (stage M o w).2.solver.device_ColsInd
        = (w.free w.solver.device_ColsInd).dev.pick (o (w.dev.trace.length + 1)).addr ∧
      (stage M o w).2.solver.device_values
        = (((w.free w.solver.device_ColsInd).alloc (Slot.set .colsInd) (4 * M.colsValue.length)
            (o (w.dev.trace.length + 1)).addr).free w.solver.device_values).dev.pick
            (o (w.dev.trace.length + 3)).addr := by
  have hrun : stage M o w = stage M o w := rfl
  conv at hrun =>
    rhs
    simp only [stage, readMatrix, firstStepAlloc, firstStepBody, reallocNnz, sendData, bind_run,
      getSolver_run, setSolver_run, ite_run, pure_run, cudaMalloc, cudaFree,
      cudaMemcpyAsyncHostToDevice, cudaDeviceSynchronize, checkCudaErrors_ok ho, discard_ok ho]
  rw [hrun]
  simp [hf, h1, h2]
  constructor <;> rfl

theorem invert_run (M : HostMatrix) (o : Oracle) (w : World) (h : (stage M o w).1 = some ()) :
    invert M o w = factorize o (stage M o w).2 := by
  unfold invert
  rw [bind_run]
  rcases hs : stage M o w with ⟨_ | a, w1⟩
  · rw [hs] at h; simp at h
  · rfl

theorem invert_ok (ho : AllOk o) (M : HostMatrix) (w : World) : (invert M o w).1 = some () := by
  rw [invert_run M o w (stage_ok ho M w).1]
  exact (factorize_ok ho _).1

end Explicit

section KeepsRules
variable {γ α β : Type} {g : World → γ}

theorem Keeps.through_bind {x : Op α} {f : α → Op β} (hx : Keeps g x) (hf : ∀ a, Keeps g (f a)) :
    Keeps g (x >>= f) := by
  intro o w
  rw [bind_run]
  have h1 := hx o w
  rcases hxw : x o w with ⟨_ | a, w1⟩
  · rw [hxw] at h1; exact h1
  · rw [hxw] at h1
    have h2 := hf a o w1
    simp only at h2 ⊢
    rw [h2, h1]

theorem Keeps.through_getSolver : Keeps g getSolver := fun _ _ => rfl

theorem Keeps.through_pure (a : α) : Keeps g (pure a : Op α) := fun _ _ => rfl

theorem Keeps.through_setSolver {f : Solver → Solver}
    (h : ∀ w : World, g { w with solver := f w.solver } = g w) : Keeps g (setSolver f) :=
  fun _ w => h w

theorem Keeps.through_ite {c : Prop} [Decidable c] {x y : Op α} (hx : Keeps g x) (hy : Keeps g y) :
    Keeps g (if c then x else y) := by
  split
  · exact hx
  · exact hy

/-- What a failing call stores in its output leaves `g` as it was when an
assignment to that output does. -/
theorem scribbled_keeps {out : Nat → Solver → Solver}
    (h : ∀ p (w : World), g { w with solver := out p w.solver } = g w) (r : Reply) (w : World) :
    g (World.scribbled out r w) = g w := by
  unfold World.scribbled
  cases r.scribble with
  | none => rfl
  | some p => exact h p w

theorem Keeps.through_issue {c : Call} {eff : Reply → World → World}
    (hr : ∀ ok w, g (record c ok w) = g w) (he : ∀ r w, g (eff r w) = g w) :
    Keeps g (issue c eff World.untouched) := by
  intro o w
  unfold SofaCudaSolver.issue
  simp only
  split
  · rw [he, hr]
  · rw [untouched_eq, hr]

theorem Keeps.through_issue_out {c : Call} {eff : Reply → World → World}
    {out : Nat → Solver → Solver}
    (hr : ∀ ok w, g (record c ok w) = g w) (he : ∀ r w, g (eff r w) = g w)
    (ho : ∀ p (w : World), g { w with solver := out p w.solver } = g w) :
    Keeps g (issue c eff (World.scribbled out)) := by
  intro o w
  unfold SofaCudaSolver.issue
  simp only
  split
  · rw [he, hr]
  · rw [scribbled_keeps ho, hr]

theorem Keeps.through_checkCudaErrors {call : Op Bool} (h : Keeps g call) :
    Keeps g (checkCudaErrors call) := by
  intro o w
  have h1 := h o w
  unfold SofaCudaSolver.checkCudaErrors
  rcases hc : call o w with ⟨_ | _ | _, w1⟩ <;> rw [hc] at h1 <;> exact h1

theorem Keeps.through_checksolver {call : Op Bool} (h : Keeps g call) :
    Keeps g (checksolver call) := by
  intro o w
  have h1 := h o w
  unfold SofaCudaSolver.checksolver
  rcases hc : call o w with ⟨_ | _ | _, w1⟩ <;> rw [hc] at h1 <;> exact h1

theorem Keeps.through_discard {call : Op Bool} (h : Keeps g call) : Keeps g (discard call) :=
  fun o w => h o w

end KeepsRules

/-- Statement `invert` never writes `singularity` nor `tol`. -/
theorem invert_keeps_singularity (M : HostMatrix) :
    Keeps (fun w => (w.solver.singularity, w.solver.tol)) (invert M) := by
  unfold invert stage factorize sendData reallocNnz firstStepAlloc firstStepBody readMatrix
    cudaMalloc cudaFree cudaMemcpyAsyncHostToDevice cudaDeviceSynchronize
    cusolverSpCreateCsrcholInfo cusolverSpXcsrcholAnalysis cusolverSpDcsrcholBufferInfo
    cusolverSpDcsrcholFactor
  repeat' first
    | apply Keeps.through_bind
    | apply Keeps.through_checkCudaErrors
    | apply Keeps.through_checksolver
    | apply Keeps.through_discard
    | apply Keeps.through_ite
    | apply Keeps.through_pure
    | apply Keeps.through_getSolver
    | apply Keeps.through_setSolver
    | apply Keeps.through_issue
    | apply Keeps.through_issue_out
    | intro _
    | rfl

/-- Staging never writes the factorization handle, the workspace pointer or
the library's info objects. -/
theorem stage_keeps_factorization (M : HostMatrix) :
    Keeps (fun w => (w.solver.device_info, w.solver.buffer_gpu, w.dev.infos)) (stage M) := by
  unfold stage sendData reallocNnz firstStepAlloc firstStepBody readMatrix
    cudaMalloc cudaFree cudaMemcpyAsyncHostToDevice cudaDeviceSynchronize
  repeat' first
    | apply Keeps.through_bind
    | apply Keeps.through_checkCudaErrors
    | apply Keeps.through_discard
    | apply Keeps.through_ite
    | apply Keeps.through_pure
    | apply Keeps.through_getSolver
    | apply Keeps.through_setSolver
    | apply Keeps.through_issue
    | apply Keeps.through_issue_out
    | intro _
    | rfl

/-- Factorization never writes the column-index and values pointers. -/
theorem factorize_keeps_nnz_pointers :
    Keeps (fun w => (w.solver.device_ColsInd, w.solver.device_values)) factorize := by
  unfold factorize cudaMalloc cudaFree
    cusolverSpCreateCsrcholInfo cusolverSpXcsrcholAnalysis cusolverSpDcsrcholBufferInfo
    cusolverSpDcsrcholFactor
  repeat' first
    | apply Keeps.through_bind
    | apply Keeps.through_checkCudaErrors
    | apply Keeps.through_checksolver
    | apply Keeps.through_discard
    | apply Keeps.through_ite
    | apply Keeps.through_pure
    | apply Keeps.through_getSolver
    | apply Keeps.through_issue
    | apply Keeps.through_issue_out
    | intro _
    | rfl

theorem allOk_ok : AllOk allOk := fun _ => rfl

theorem allOkAt_ok (a : Nat) : AllOk (allOkAt a) := fun _ => rfl

theorem proposeAt_ok (i a : Nat) : AllOk (proposeAt i a) := by
  intro j
  unfold proposeAt
  split <;> rfl

/-- When staging ran to its end from a state satisfying the invariant, the
workspace pointer still names the allocation it named before. -/
theorem stage_keeps_workspace {o : Oracle} {r v : Nat} {M : HostMatrix} {w : World}
    (hr : r + 1 < 2 ^ 31) (hM : M.rowBSize = r) (hi : Inv r v w)
    (hs : (stage M o w).1 = some ()) :
    (stage M o w).2.dev.capAt (stage M o w).2.solver.buffer_gpu
      = w.dev.capAt w.solver.buffer_gpu := by
  subst hM
  have hne : (stage M o w).1 ≠ none := by rw [hs]; simp
  have hbuf : (stage M o w).2.solver.buffer_gpu = w.solver.buffer_gpu :=
    congrArg (fun q => q.2.1) (stage_keeps_factorization M o w)
  cases hf : w.solver.firstStep
  · obtain ⟨cp, cc, cv, cb, hh⟩ := hi.2 hf
    have h := ((stage_spec (o := o) (n := 0) (t := w.dev.trace) (f := false) hr
      (fun h => absurd h (by simp)) (fun _ => rfl)).run (w := w)
      ⟨hh, Ext.refl 0 w, hf⟩).1 hne
    have h1 := h.1.held.owns.cap .buffer cb rfl
    have h2 := hh.owns.cap .buffer cb rfl
    exact h1.trans h2.symm
  · have hh := hi.1 hf
    have h := ((stage_spec (o := o) (n := 0) (t := w.dev.trace) (f := true) hr
      (fun _ => rfl) (fun h => absurd h (by simp))).run (w := w)
      ⟨hh, Ext.refl 0 w, hf⟩).1 hne
    have h0 : w.solver.buffer_gpu = 0 := hh.null .buffer rfl (by simp)
    rw [hbuf, h0, h.1.held.base.null, hh.base.null]

theorem factorize_create_fails {o : Oracle} {w : World}
    (h : (o w.dev.trace.length).ok = false) :
    factorize o w = (none, World.scribbled (fun p s => { s with device_info := p })
      (o w.dev.trace.length) (record .cusolverSpCreateCsrcholInfo false w)) := by
  simp [factorize, bind_run, checksolver, cusolverSpCreateCsrcholInfo, issue, h]

theorem scribbled_info (r : Reply) (w : World) :
    (World.scribbled (fun p s => { s with device_info := p }) r w).solver.device_info
      = r.scribble.getD w.solver.device_info ∧
    (World.scribbled (fun p s => { s with device_info := p }) r w).solver.buffer_gpu
      = w.solver.buffer_gpu := by
  unfold World.scribbled
  cases r.scribble <;> exact ⟨rfl, rfl⟩

theorem reach_built (P : HostMatrix → Prop) : Reach P built :=
  Reach.construct rawSolver allOk

theorem reach_afterSparse5 : Reach (fun M => M.rowBSize = 4) afterSparse5 :=
  Reach.invert allOk sparse5 (reach_built _) rfl (by decide)

theorem reach_afterIdentity : Reach (fun M => M.rowBSize = 3) afterIdentity :=
  Reach.invert allOk identity3 (reach_built _) rfl (by decide)

theorem reach_afterRecycle : Reach (fun M => M.rowBSize = 4 ∧ M.colBSize = 4) afterRecycle :=
  Reach.invert (allOkAt 9) sparse12
    (show Reach (fun M => M.rowBSize = 4 ∧ M.colBSize = 4) afterSparse5 from
      Reach.invert allOk sparse5 (reach_built _) ⟨rfl, rfl⟩ (by decide))
    ⟨rfl, rfl⟩ (by decide)

theorem reach_afterSolve : Reach (fun M => M.rowBSize = 4 ∧ M.colBSize = 4) afterSolve :=
  Reach.solve allOk [0, 0, 0, 0] [1, 2, 3, 4] reach_afterRecycle (by decide)

/-- C9: in every `invert` call in which all calls succeed, staging runs to its
end with the completed wait as its last call and an empty transfer queue, and
the calls issued after it are exactly: (1) creation of the info object,
(2) symbolic analysis on the row pointer and column indices, (3) the workspace
sizing query, (4) the release of the previous workspace if there is one and the
allocation of a new one of the queried work size, (5) numeric factorization
with that workspace; on return the workspace buffer has the capacity answered
by the query of this call. -/
theorem invert_factorization_order (o : Oracle) (ho : AllOk o) (M : HostMatrix) (w : World) :
    (stage M o w).1 = some () ∧
    (stage M o w).2.dev.pending = [] ∧
    (stage M o w).2.dev.trace.getLast? = some ⟨.cudaDeviceSynchronize, true, true⟩ ∧
    (stage M o w).2.solver.buffer_gpu = w.solver.buffer_gpu ∧
    (invert M o w).1 = some () ∧
    (invert M o w).2.dev.trace.map Event.call =
      (stage M o w).2.dev.trace.map Event.call ++
        [.cusolverSpCreateCsrcholInfo,
         .cusolverSpXcsrcholAnalysis (stage M o w).2.solver.handle (stage M o w).2.solver.rowsA
            (stage M o w).2.solver.nnz (stage M o w).2.solver.descr
            (stage M o w).2.solver.device_RowPtr (stage M o w).2.solver.device_ColsInd
            (invert M o w).2.solver.device_info,
         .cusolverSpDcsrcholBufferInfo (stage M o w).2.solver.handle
            (stage M o w).2.solver.rowsA (stage M o w).2.solver.nnz (stage M o w).2.solver.descr
            (stage M o w).2.solver.device_values (stage M o w).2.solver.device_RowPtr
            (stage M o w).2.solver.device_ColsInd (invert M o w).2.solver.device_info] ++
        (if w.solver.buffer_gpu ≠ 0 then [.cudaFree w.solver.buffer_gpu] else []) ++
        [.cudaMalloc (1 * (o ((stage M o w).2.dev.trace.length + 2)).sizeWork),
         .cusolverSpDcsrcholFactor (stage M o w).2.solver.handle (stage M o w).2.solver.rowsA
            (stage M o w).2.solver.nnz (stage M o w).2.solver.descr
            (stage M o w).2.solver.device_values (stage M o w).2.solver.device_RowPtr
            (stage M o w).2.solver.device_ColsInd (invert M o w).2.solver.device_info
            (invert M o w).2.solver.buffer_gpu] ∧
    (invert M o w).2.dev.capAt (invert M o w).2.solver.buffer_gpu
      = some (o ((stage M o w).2.dev.trace.length + 2)).sizeWork := by
  obtain ⟨hs1, hs2, hs3⟩ := stage_ok ho M w
  have hk := stage_keeps_factorization M o w
  have hbuf : (stage M o w).2.solver.buffer_gpu = w.solver.buffer_gpu :=
    congrArg (fun q => q.2.1) hk
  obtain ⟨f1, f2, f3, f4, f5⟩ := factorize_ok ho (stage M o w).2
  rw [invert_run M o w hs1]
  refine ⟨hs1, hs2, hs3, hbuf, f1, ?_, f5⟩
  rw [f2, f3, hbuf]

/-- Witness of C9: a second `invert` (12 entries after 5). -/
theorem invert_factorization_order_witness :
    AllOk allOk ∧ (invert sparse12 allOk afterSparse5).1 = some () ∧
    (invert sparse12 allOk afterSparse5).2.dev.capAt
      (invert sparse12 allOk afterSparse5).2.solver.buffer_gpu
      = some (allOk ((stage sparse12 allOk afterSparse5).2.dev.trace.length + 2)).sizeWork :=
  ⟨allOk_ok, (invert_factorization_order allOk allOk_ok sparse12 afterSparse5).2.2.2.2.1,
    (invert_factorization_order allOk allOk_ok sparse12 afterSparse5).2.2.2.2.2.2⟩

/-- C6, as the code has it: in every `invert` call made when the first step has
passed and the column-index and values buffers exist, and in which all calls
succeed, `invert` frees both buffers and allocates new ones of `4*nnz` and
`8*nnz` bytes before anything else, whether or not `nnz` equals the previous
capacity; the solver then points to the two new allocations, at the addresses
the allocator returned for them. -/
theorem invert_always_reallocates (o : Oracle) (ho : AllOk o) (M : HostMatrix) (w : World)
    (hf : w.solver.firstStep = false) (h1 : w.solver.device_ColsInd ≠ 0)
    (h2 : w.solver.device_values ≠ 0) :
    (∃ rest, (invert M o w).2.dev.trace.map Event.call = w.dev.trace.map Event.call ++
      [.cudaFree w.solver.device_ColsInd,
       .cudaMalloc (4 * M.colsValue.length),
       .cudaFree w.solver.device_values,
       .cudaMalloc (8 * M.colsValue.length)] ++ rest) ∧
    (invert M o w).2.solver.device_ColsInd
      = (w.free w.solver.device_ColsInd).dev.pick (o (w.dev.trace.length + 1)).addr ∧
    (invert M o w).2.solver.device_values
      = (((w.free w.solver.device_ColsInd).alloc (Slot.set .colsInd) (4 * M.colsValue.length)
          (o (w.dev.trace.length + 1)).addr).free w.solver.device_values).dev.pick
          (o (w.dev.trace.length + 3)).addr := by
  obtain ⟨hs1, -, -⟩ := stage_ok ho M w
  obtain ⟨g1, g2, g3⟩ := stage_ok_later ho M w hf h1 h2
  obtain ⟨-, f2, -⟩ := factorize_ok ho (stage M o w).2
  have hk := factorize_keeps_nnz_pointers o (stage M o w).2
  rw [invert_run M o w hs1]
  refine ⟨?_, ?_, ?_⟩
  · rw [f2, g1]
    simp only [List.append_assoc, List.cons_append, List.nil_append]
    exact ⟨_, rfl⟩
  · rw [← g2]; exact congrArg (fun q => q.1) hk
  · rw [← g3]; exact congrArg (fun q => q.2) hk

/-- Witness of C6 as amended: a second `invert` of the same matrix. -/
theorem invert_always_reallocates_witness :
    AllOk allOk ∧ afterIdentity.solver.firstStep = false ∧
    afterIdentity.solver.device_ColsInd ≠ 0 ∧ afterIdentity.solver.device_values ≠ 0 ∧
    (invert identity3 allOk afterIdentity).2.solver.device_ColsInd = afterIdentity.dev.next ∧
    (invert identity3 allOk afterIdentity).2.solver.device_values = afterIdentity.dev.next + 1 :=
  ⟨allOk_ok, by decide, by decide, by decide,
    (invert_always_reallocates allOk allOk_ok identity3 afterIdentity
      (by decide) (by decide) (by decide)).2.1.trans (by decide),
    (invert_always_reallocates allOk allOk_ok identity3 afterIdentity
      (by decide) (by decide) (by decide)).2.2.trans (by decide)⟩

/-- C6 fails as stated: the column-index buffer left by a first `invert` of the
3x3 identity has capacity `4*3` bytes, equal to what a second `invert` of the
same matrix needs, yet the second call starts by freeing both buffers and
allocating new ones, and ends with a different column-index pointer. -/
theorem invert_reallocates_at_equal_nnz :
    afterIdentity.dev.capAt afterIdentity.solver.device_ColsInd
      = some (4 * identity3.colsValue.length) ∧
    (((invert identity3 allOk afterIdentity).2.dev.trace.drop
        afterIdentity.dev.trace.length).take 4).map Event.call
      = [.cudaFree 9, .cudaMalloc 12, .cudaFree 10, .cudaMalloc 24] ∧
    (invert identity3 allOk afterIdentity).2.solver.device_ColsInd
      ≠ afterIdentity.solver.device_ColsInd := by
  decide

/-- C8, as the code has it: `invert` never writes the singularity member and
never changes the tolerance; both are after the call what they were before it,
whatever the matrix and whatever the library answers. -/
theorem invert_never_writes_singularity (o : Oracle) (M : HostMatrix) (w : World) :
    (invert M o w).2.solver.singularity = w.solver.singularity ∧
    (invert M o w).2.solver.tol = w.solver.tol :=
  ⟨congrArg (fun q => q.1) (invert_keeps_singularity M o w),
    congrArg (fun q => q.2) (invert_keeps_singularity M o w)⟩

/-- C8 fails as stated: for the 1x1 matrix whose pivot is zero, the singularity
member after `invert` still has its initial value 0, both when the library
reports the numeric factorization as successful and when it reports it as
failed. -/
theorem zero_pivot_not_reported :
    built.solver.singularity = 0 ∧
    (invert zero1 allOk built).1 = some () ∧
    (invert zero1 allOk built).2.solver.singularity = 0 ∧
    (invert zero1 (failAt 22) built).1 = none ∧
    (invert zero1 (failAt 22) built).2.dev.trace.getLast?
      = some ⟨.cusolverSpDcsrcholFactor 1 1 1 4 10 5 9 11 12, false, true⟩ ∧
    (invert zero1 (failAt 22) built).2.solver.singularity = 0 := by
  decide

/-- C4, evaluated on the code: a failed `cusolverSpCreate` does not abort the
constructor (the handle keeps the value the storage held); a failed
`cudaDeviceSynchronize` at line 150 does not abort `invert`, which goes on to
analyse and factorize buffers that never received the matrix; a failed
`cudaFree` at line 141 does not abort `invert` either (the old buffer stays
allocated); a failed `cudaDeviceSynchronize` at line 103 does not abort
`solve`, which goes on to issue the triangular solve. -/
theorem unchecked_statuses_do_not_abort :
    (construct (failAt 0) { solver := rawSolver, dev := Device.fresh }).1 = some () ∧
    (construct (failAt 0) { solver := rawSolver, dev := Device.fresh }).2.solver.handle
      = rawSolver.handle ∧
    (invert identity3 (failAt 17) built).1 = some () ∧
    ((invert identity3 (failAt 17) built).2.dev.trace.drop 17).take 2
      = [⟨.cudaDeviceSynchronize, false, true⟩, ⟨.cusolverSpCreateCsrcholInfo, true, true⟩] ∧
    (invert identity3 (failAt 17) built).2.dev.infos
      = [{ id := 11, pattern := some ([], []), factor := some [] }] ∧
    (invert identity3 (failAt 23) afterIdentity).1 = some () ∧
    ((invert identity3 (failAt 23) afterIdentity).2.dev.trace.drop 23).take 2
      = [⟨.cudaFree 9, false, true⟩, ⟨.cudaMalloc 12, true, true⟩] ∧
    (invert identity3 (failAt 23) afterIdentity).2.dev.capAt 9 = some 12 ∧
    (solve [0, 0, 0] [1, 2, 3] (failAt 25) afterIdentity).1 = some () ∧
    ((solve [0, 0, 0] [1, 2, 3] (failAt 25) afterIdentity).2.dev.trace.drop 25).take 2
      = [⟨.cudaDeviceSynchronize, false, true⟩,
         ⟨.cusolverSpDcsrcholSolve 1 3 8 7 11 12, true, true⟩] := by
  decide

/-- C5, evaluated on the code: a `solve` in which every call succeeds returns
with the device-to-host copy of `x` as its last call, issued after the last
wait and still in the transfer queue. -/
theorem solve_returns_with_copy_queued :
    (solve [0, 0, 0] [1, 2, 3] allOk afterIdentity).1 = some () ∧
    ((solve [0, 0, 0] [1, 2, 3] allOk afterIdentity).2.dev.trace.drop 27).map Event.call
      = [.cudaDeviceSynchronize, .cudaMemcpyAsyncDeviceToHost 7 8 3] ∧
    (solve [0, 0, 0] [1, 2, 3] allOk afterIdentity).2.dev.pending = [.deviceToHost 7 8 3] := by
  decide

/-- C7, evaluated on the code: after two successful `invert` calls the library
holds two info objects, the one of the first call still alive and no longer
referenced by the solver; the destructor releases neither. -/
theorem second_invert_leaves_two_infos :
    afterSparse5.dev.infos.map CsrcholInfo.id = [11] ∧
    afterSparse5.solver.device_info = 11 ∧
    (invert sparse12 allOk afterSparse5).1 = some () ∧
    (invert sparse12 allOk afterSparse5).2.dev.infos.map CsrcholInfo.id = [11, 15] ∧
    (invert sparse12 allOk afterSparse5).2.solver.device_info = 15 ∧
    (destruct allOk (invert sparse12 allOk afterSparse5).2).1 = some () ∧
    (destruct allOk (invert sparse12 allOk afterSparse5).2).2.dev.infos.map CsrcholInfo.id
      = [11, 15] := by
  decide

end SofaCudaSolver
